import Mathlib

/-!
# header.js: link analysis and download orchestration

A shallow embedding of `src/header.js`.  The file holds one async function,
`download()`, and the two event handlers it installs (`#mp3-btn`.onclick and
`select.onchange`).

Modelling conventions

* The page is explicit state (`Page`): the status element, the `#thumbnail`
  and `#thumb-img` elements (each may be missing from the page, the code tests
  for that), and the list of elements that follow `#thumbnail` in document
  order (`siblings`).  The regions the code creates are only ever inserted
  there.
* Lines 52-56 write `title` and `site` into the text-group through
  `innerHTML`, so tags in them become elements inside the text-group, and the
  document-wide lookups of lines 25-27, 81 and 146 can hit such an element
  before the region they are meant for.  A text-group therefore carries its
  `inner` elements, in document order with their nesting depth; what the HTML
  parser builds from a payload comes with the payload (`Info.markup`).
  Document order is: an element, then its `inner` elements, then its next
  sibling.
* Everything the code does to the outside world is appended to a log
  (`Effect`): `alert`, `fetch`, the click on a transient anchor (`save`) and an
  exception that escapes `download()` (`uncaught`).
* An `await fetch(..)` followed by `await r.json()` is a value of `Fetched`:
  either one of the two awaits rejected, or a response with its `ok` flag and
  decoded payload arrived.  A run is split at that await into `downloadStart`
  and `downloadResume`; `download` is the two in sequence.
* JavaScript strings are `String`; `undefined` fields are `Option`.
* The page is taken to hold the `.Link-Search` input and `#status`: the code
  dereferences both without a test.  Payload fields follow the backend
  contract: `error`, `thumbnail`, `file` and the three format lists may be
  missing, `formats` itself is an object.
* Out of the model: scripts that markup could start, markup in a message
  written to `#status`, and markup that would shadow `.Link-Search`, `#status`,
  `#thumbnail` or `#thumb-img`.
-/

namespace Header

/-! ## JavaScript primitives -/

/-- Code points removed by `String.prototype.trim` (WhiteSpace and LineTerminator). -/
def isJsWhitespace (c : Char) : Bool :=
  let n := c.toNat
  n == 0x09 || n == 0x0A || n == 0x0B || n == 0x0C || n == 0x0D || n == 0x20 ||
  n == 0xA0 || n == 0x1680 || (0x2000 ≤ n && n ≤ 0x200A) || n == 0x2028 ||
  n == 0x2029 || n == 0x202F || n == 0x205F || n == 0x3000 || n == 0xFEFF

/-- The method `s.trim()`. -/
def jsTrim (s : String) : String :=
  ⟨((s.data.dropWhile isJsWhitespace).reverse.dropWhile isJsWhitespace).reverse⟩

/-- Truthiness of a value that is `undefined` or a string: only a non-empty string is truthy. -/
def truthy : Option String → Bool
  | some s => s != ""
  | none => false

/-- String conversion of a possibly-`undefined` value inside a template or an attribute. -/
def str (o : Option String) : String := o.getD "undefined"

/-- Does `s` begin with `pat`? -/
def startsAt : List Char → List Char → Bool
  | [], _ => true
  | _ :: _, [] => false
  | p :: ps, c :: cs => p == c && startsAt ps cs

/-- The scan of `String.prototype.split` for a non-empty separator.  `skip` counts the
characters of a matched separator still to be consumed, `cur` is the current piece (reversed). -/
def splitGo (sep : List Char) : Nat → List Char → List Char → List (List Char)
  | _, cur, [] => [cur.reverse]
  | skip + 1, cur, _ :: cs => splitGo sep skip cur cs
  | 0, cur, c :: cs =>
    if startsAt sep (c :: cs) then cur.reverse :: splitGo sep (sep.length - 1) [] cs
    else splitGo sep 0 (c :: cur) cs

/-- The method `s.split(sep)` for a non-empty `sep`. -/
def jsSplit (s sep : String) : List String :=
  (splitGo sep.data 0 [] s.data).map String.mk

/-- The method `s.includes(pat)` on character lists. -/
def includesChars (pat : List Char) : List Char → Bool
  | [] => pat.isEmpty
  | c :: cs => startsAt pat (c :: cs) || includesChars pat cs

/-- The method `s.includes(pat)`. -/
def jsIncludes (s pat : String) : Bool := includesChars pat.data s.data

/-- The method `s.endsWith(c)` for a single character. -/
def jsEndsWith (s : String) (c : Char) : Bool := s.data.getLast? == some c

/-! ## Backend payloads -/

/-- The outcome of `await fetch(..)` then `await r.json()`. -/
inductive Fetched (α : Type) where
  | rejected (message : String)
  | response (ok : Bool) (payload : α)
  deriving DecidableEq

/-- One entry of `formats.audio_only`, `formats.combined` or `formats.video_only`. -/
structure Format where
  format_id : String
  resolution : Option String
  ext : Option String
  filesize : Option String
  deriving DecidableEq

/-- The `formats` object; each list may be missing (the code reads it with `|| []`). -/
structure Formats where
  audio_only : Option (List Format)
  combined : Option (List Format)
  video_only : Option (List Format)
  deriving DecidableEq

/-- The `id` of an element built from markup, as far as the code's lookups tell ids apart:
`quality-options`, `audio-group`, `mp3-btn`, or anything else (also no id). -/
inductive MarkupId where
  | qualityOptions
  | audioGroup
  | mp3Btn
  | other
  deriving DecidableEq

/-- An element the HTML parser builds from markup, with its nesting depth: the elements that
follow it with a greater depth, up to the first one that has not, are its descendants. -/
structure Markup where
  depth : Nat
  id : MarkupId
  deriving DecidableEq

/-- Decoded `/api/info` payload.  The field `markup` is not part of the JSON: it is what the
HTML parser makes of `title` and `site` when lines 52-56 assign them through `innerHTML`,
namely the elements created inside the text-group, in document order.  It is empty when
`title` and `site` hold no tag. -/
structure Info where
  error : Option String
  title : String
  site : String
  thumbnail : Option String
  limited_formats : Bool
  formats : Formats
  markup : List Markup
  deriving DecidableEq

/-- Decoded `/api/download` and `/api/download_audio` payload. -/
structure DownloadPayload where
  error : Option String
  file : Option String
  deriving DecidableEq

/-- JSON request body; an `undefined` property is dropped by `JSON.stringify`. -/
structure Body where
  url : String
  format_id : Option String
  format_kind : Option String
  deriving DecidableEq

/-! ## Page state and effects -/

/-- An `<option>` of the quality selector. -/
structure SelectOption where
  value : String
  text : String
  disabled : Bool
  deriving DecidableEq

/-- What an element inside a text-group is: an element built from markup (`onclick` holds
the URL of a handler that line 81 installed on it), or a `#quality-options` container that
line 146 placed there. -/
inductive InnerKind where
  | markup (id : MarkupId) (onclick : Option String)
  | selector (options : List SelectOption) (onchange : Option String)
  deriving DecidableEq

/-- An element inside a text-group, with its nesting depth. -/
structure Inner where
  depth : Nat
  kind : InnerKind
  deriving DecidableEq

/-- Elements following `#thumbnail`.  `onclick` and `onchange` hold the URL captured by the
installed handler closure (`none`: no handler installed); the `inner` list of a text-group
holds the elements inside it. -/
inductive Node where
  | textGroup (title site : String) (limited : Bool) (inner : List Inner)
  | audioGroup (onclick : Option String)
  | qualityOptions (options : List SelectOption) (onchange : Option String)
  | other (tag : Nat)
  deriving DecidableEq

/-- Matches `.text-group`. -/
def Node.isText : Node → Bool
  | .textGroup _ _ _ _ => true
  | _ => false

/-- Matches `#audio-group`. -/
def Node.isAudio : Node → Bool
  | .audioGroup _ => true
  | _ => false

/-- Matches `#quality-options`. -/
def Node.isQuality : Node → Bool
  | .qualityOptions _ _ => true
  | _ => false

/-- Matches `#quality-options` inside a text-group. -/
def InnerKind.isQuality : InnerKind → Bool
  | .markup .qualityOptions _ => true
  | .selector _ _ => true
  | _ => false

/-- Matches `#audio-group` inside a text-group. -/
def InnerKind.isAudio : InnerKind → Bool
  | .markup .audioGroup _ => true
  | _ => false

/-- The part of the document the code reads and writes. -/
structure Page where
  statusHTML : String
  statusTextAlign : String
  thumbnail : Option String
  thumbImg : Option String
  siblings : List Node
  deriving DecidableEq

/-- Externally visible actions. -/
inductive Effect where
  | alert (message : String)
  | fetch (endpoint : String) (body : Body)
  | save (href : String)
  | uncaught (message : String)
  deriving DecidableEq

/-- Is the effect a network request? -/
def Effect.isFetch : Effect → Bool
  | .fetch _ _ => true
  | _ => false

/-- Is the effect a file save (click on the transient anchor)? -/
def Effect.isSave : Effect → Bool
  | .save _ => true
  | _ => false

/-- Page, effect log, and the URLs of the analysis runs suspended at `await fetch("/api/info")`. -/
structure World where
  page : Page
  log : List Effect
  pending : List String
  deriving DecidableEq

/-- Result of a block of statements: it ran to its end or threw, in either case leaving a state. -/
inductive Completion (α : Type) where
  | normal (state : α)
  | threw (state : α) (message : String)
  deriving DecidableEq

/-- Message of the engine's TypeError for a property access on `null`. -/
def nullAccessMessage : String := "Cannot read properties of null"

/-! ## `download()` -/

/-- Lines 13-17: the markup written into `#status` when a run starts. -/
def analyzingHTML : String :=
  "\n    <div class=\"spinner-container\">\n      <span class=\"emoji-spinner\">⏳</span>\n      <p>Analyzing link...</p>\n    </div>"

/-- The call `el.remove()` on the first inner element that satisfies `p`: the element goes
together with its descendants.  The result is `none` when no inner element satisfies `p`. -/
def removeInner (p : InnerKind → Bool) : List Inner → Option (List Inner)
  | [] => none
  | e :: es =>
    if p e.kind then some (es.dropWhile (fun x => decide (e.depth < x.depth)))
    else (removeInner p es).map (e :: ·)

/-- The statement `document.querySelector(sel)?.remove()` for an id selector: `top` tells
which elements following the thumbnail match, `inn` which elements inside a text-group do.
The first match in document order is removed. -/
def removeFirst (top : Node → Bool) (inn : InnerKind → Bool) : List Node → List Node
  | [] => []
  | n :: ns =>
    if top n then ns
    else
      match n with
      | .textGroup t s l inner =>
        match removeInner inn inner with
        | some inner2 => .textGroup t s l inner2 :: ns
        | none => n :: removeFirst top inn ns
      | _ => n :: removeFirst top inn ns

/-- Lines 20-27, "Clear old UI".  Line 26 removes the first `.text-group`; the first one in
document order is never an inner element, since every inner element sits in a text-group
that comes before it. -/
def teardown (p : Page) : Completion Page :=
  match p.thumbnail with
  | some _ =>
    match p.thumbImg with
    | none => .threw { p with thumbnail := some "none" } nullAccessMessage
    | some _ =>
      .normal { p with
        thumbnail := some "none"
        thumbImg := some ""
        siblings := removeFirst Node.isAudio InnerKind.isAudio
          ((removeFirst Node.isQuality InnerKind.isQuality p.siblings).eraseP Node.isText) }
  | none =>
    .normal { p with
      siblings := removeFirst Node.isAudio InnerKind.isAudio
        ((removeFirst Node.isQuality InnerKind.isQuality p.siblings).eraseP Node.isText) }

/-- Lines 1-34: everything up to the first `await`. -/
def downloadStart (w : World) (raw : String) : World :=
  let url := jsTrim raw
  if url = "" then
    { w with log := w.log ++ [.alert "Please enter a media URL."] }
  else
    let p1 := { w.page with statusHTML := analyzingHTML, statusTextAlign := "center" }
    match teardown p1 with
    | .threw p2 msg => { w with page := p2, log := w.log ++ [.uncaught msg] }
    | .normal p2 =>
      { page := p2
        log := w.log ++ [.fetch "/api/info" ⟨url, none, none⟩]
        pending := w.pending ++ [url] }

/-- A video candidate: a format tagged with the list it came from. -/
structure Candidate where
  format : Format
  kind : String
  deriving DecidableEq

/-- Lines 109-115. -/
def allVideo (info : Info) : List Candidate :=
  ((info.formats.combined.getD []).map fun x => ⟨x, "combined"⟩) ++
  ((info.formats.video_only.getD []).map fun x => ⟨x, "video_only"⟩)

/-- Lines 138-140: the `<option>` of one candidate. -/
def candidateOption (f : Candidate) : SelectOption :=
  { value := f.format.format_id ++ "||" ++ f.kind
    text := str f.format.resolution ++ " (" ++ str f.format.ext ++ ") " ++
      (if truthy f.format.filesize then " - " ++ str f.format.filesize else "")
    disabled := false }

/-- Lines 133-142: placeholder followed by one option per candidate. -/
def selectOptions (cands : List Candidate) : List SelectOption :=
  ⟨"", "Select Video Quality", true⟩ :: cands.map candidateOption

/-- Line 81 inside a text-group: the handler goes to the first element with id `mp3-btn`. -/
def setInnerOnclick (url : String) : List Inner → Option (List Inner)
  | [] => none
  | ⟨d, .markup .mp3Btn _⟩ :: es => some (⟨d, .markup .mp3Btn (some url)⟩ :: es)
  | e :: es => (setInnerOnclick url es).map (e :: ·)

/-- Line 81: `document.getElementById("mp3-btn").onclick = ..` reaches the first element with
that id in document order: one built from markup, or the button of an `#audio-group`. -/
def setMp3Onclick (url : String) : List Node → List Node
  | [] => []
  | .audioGroup _ :: ns => .audioGroup (some url) :: ns
  | .textGroup t s l inner :: ns =>
    match setInnerOnclick url inner with
    | some inner2 => .textGroup t s l inner2 :: ns
    | none => .textGroup t s l inner :: setMp3Onclick url ns
  | n :: ns => n :: setMp3Onclick url ns

/-- Line 146 inside a text-group: `q` is inserted after the first element with id
`audio-group`, that is after its last descendant and at its depth. -/
def insertInner (q : InnerKind) : List Inner → Option (List Inner)
  | [] => none
  | e :: es =>
    if e.kind.isAudio then
      some (e :: (es.takeWhile (fun x => decide (e.depth < x.depth)) ++
        ⟨e.depth, q⟩ :: es.dropWhile (fun x => decide (e.depth < x.depth))))
    else (insertInner q es).map (e :: ·)

/-- Line 146, left operand: insert the selector after the first `#audio-group` of the
document, if there is one. -/
def insertAfterAudio (options : List SelectOption) (url : String) :
    List Node → Option (List Node)
  | [] => none
  | .audioGroup h :: ns => some (.audioGroup h :: .qualityOptions options (some url) :: ns)
  | .textGroup t s l inner :: ns =>
    match insertInner (.selector options (some url)) inner with
    | some inner2 => some (.textGroup t s l inner2 :: ns)
    | none => (insertAfterAudio options url ns).map (.textGroup t s l inner :: ·)
  | n :: ns => (insertAfterAudio options url ns).map (n :: ·)

/-- Lines 46-104, on the elements following `#thumbnail`: the text region, holding what the
parser builds from `title` and `site`, goes first; when the payload has audio formats the
audio affordance goes after it and line 81 installs the handler. -/
def afterText (url : String) (info : Info) (rest : List Node) : List Node :=
  if (info.formats.audio_only.getD []).length > 0 then
    setMp3Onclick url (Node.textGroup info.title info.site info.limited_formats
      (info.markup.map fun m => ⟨m.depth, .markup m.id none⟩) :: .audioGroup none :: rest)
  else
    Node.textGroup info.title info.site info.limited_formats
      (info.markup.map fun m => ⟨m.depth, .markup m.id none⟩) :: rest

/-- Lines 46-146, on the elements following `#thumbnail`: after the text region and the
audio affordance, the quality selector (if any) goes after the first `#audio-group` of the
document or else after the text region. -/
def placeRegions (url : String) (info : Info) (rest : List Node) : List Node :=
  if (allVideo info).length = 0 then afterText url info rest
  else
    match insertAfterAudio (selectOptions (allVideo info)) url (afterText url info rest) with
    | some ns => ns
    | none =>
      match afterText url info rest with
      | t :: ns => t :: .qualityOptions (selectOptions (allVideo info)) (some url) :: ns
      | [] => [.qualityOptions (selectOptions (allVideo info)) (some url)]

/-- Lines 38-177: the body of the `try` after the success test. -/
def renderInfo (url : String) (info : Info) (p : Page) : Completion Page :=
  let p1 := { p with statusHTML := "✅ Link analyzed successfully!" }
  let p2 :=
    if p1.thumbnail.isSome && p1.thumbImg.isSome then
      { p1 with thumbImg := some (str info.thumbnail), thumbnail := some "block" }
    else p1
  match p2.thumbnail with
  | none => .threw p2 nullAccessMessage
  | some _ => .normal { p2 with siblings := placeRegions url info p2.siblings }

/-- Lines 35-181: what a run does once the `/api/info` await settles. -/
def downloadResume (url : String) (resp : Fetched Info) (p : Page) : Page :=
  match resp with
  | .rejected m => { p with statusHTML := "❌ Error: " ++ m }
  | .response ok info =>
    if !ok || truthy info.error then
      { p with statusHTML := "❌ Error: " ++
          (if truthy info.error then str info.error else "Info fetch failed.") }
    else
      match renderInfo url info p with
      | .normal p2 => p2
      | .threw p2 m => { p2 with statusHTML := "❌ Error: " ++ m }

/-- The `i`-th suspended run receives its response. -/
def resolveAt (i : Nat) (resp : Fetched Info) (w : World) : World :=
  match w.pending.get? i with
  | none => w
  | some url =>
    { w with page := downloadResume url resp w.page, pending := w.pending.eraseIdx i }

/-- One whole run of `download()` with nothing interleaved at its await. -/
def download (w : World) (raw : String) (resp : Fetched Info) : World :=
  resolveAt w.pending.length resp (downloadStart w raw)

/-! ## Download handlers -/

/-- Lines 81-103: `#mp3-btn`.onclick, with `url` from the enclosing run. -/
def mp3Click (url : String) (resp : Fetched DownloadPayload) (w : World) : World :=
  let log1 := w.log ++ [.fetch "/api/download_audio" ⟨url, none, none⟩]
  match resp with
  | .rejected m => { w with page := { w.page with statusHTML := "❌ " ++ m }, log := log1 }
  | .response ok dj =>
    if !ok || truthy dj.error then
      { w with page := { w.page with statusHTML := "❌ " ++ dj.error.getD "" }, log := log1 }
    else
      { w with
        page := { w.page with statusHTML := "✅ Audio download complete!" }
        log := log1 ++ [.save (str dj.file)] }

/-- Lines 148-177: `select.onchange`, with `url` from the enclosing run and `value` the
selector's current value. -/
def selectOnChange (url value : String) (resp : Fetched DownloadPayload) (w : World) : World :=
  if value = "" then w
  else
    let parts := jsSplit value "||"
    let log1 := w.log ++ [.fetch "/api/download" ⟨url, parts.get? 0, parts.get? 1⟩]
    match resp with
    | .rejected m => { w with page := { w.page with statusHTML := "❌ " ++ m }, log := log1 }
    | .response ok dj =>
      if !ok || truthy dj.error then
        { w with page := { w.page with statusHTML := "❌ " ++ dj.error.getD "" }, log := log1 }
      else
        { w with
          page := { w.page with statusHTML := "✅ Video download finished!" }
          log := log1 ++ [.save (str dj.file)] }

/-! ## Predicates used to state the properties -/

/-- One of the three regions a run creates. -/
def Node.isRegion (n : Node) : Bool := n.isQuality || n.isText || n.isAudio

/-- No text-group, audio-group or quality-options element in the list. -/
def NoRegions (l : List Node) : Prop := ∀ n ∈ l, n.isRegion = false

/-- Is the inner element a quality selector placed by line 146? -/
def InnerKind.isSelector : InnerKind → Bool
  | .selector _ _ => true
  | _ => false

/-- The number of quality selectors an element is or holds. -/
def Node.selectors : Node → Nat
  | .qualityOptions _ _ => 1
  | .textGroup _ _ _ inner => inner.countP (fun x => x.kind.isSelector)
  | _ => 0

/-- The number of quality selectors on the page, those inside a text-group included. -/
def selectorCount (l : List Node) : Nat := (l.map Node.selectors).sum

/-- Is the element a quality selector, or a text-group that holds one? -/
def Node.hasSelector (n : Node) : Bool := decide (0 < n.selectors)

/-- Is the element the selector with these options and this handler, or a text-group that
holds it? -/
def Node.holdsSelector (options : List SelectOption) (h : Option String) : Node → Bool
  | .qualityOptions o g => decide (o = options ∧ g = h)
  | .textGroup _ _ _ inner => inner.any (fun x => decide (x.kind = .selector options h))
  | _ => false

/-- The elements inside an element. -/
def Node.inner : Node → List Inner
  | .textGroup _ _ _ inner => inner
  | _ => []

/-- No text-group holds an element: none built from markup, none placed there. -/
def Plain (l : List Node) : Prop := ∀ n ∈ l, n.inner = []

/-- At most one text-group, one audio-group and one quality selector. -/
def AtMostOne (l : List Node) : Prop :=
  l.countP Node.isText ≤ 1 ∧ l.countP Node.isAudio ≤ 1 ∧ selectorCount l ≤ 1

/-- The page has `#thumbnail` and `#thumb-img`, no region occurs twice, and no text-group
holds an element. -/
def Page.Ready (p : Page) : Prop :=
  p.thumbnail.isSome = true ∧ p.thumbImg.isSome = true ∧ AtMostOne p.siblings ∧
    Plain p.siblings

instance (l : List Node) : Decidable (NoRegions l) :=
  inferInstanceAs (Decidable (∀ n ∈ l, n.isRegion = false))

instance (l : List Node) : Decidable (Plain l) :=
  inferInstanceAs (Decidable (∀ n ∈ l, n.inner = []))

instance (l : List Node) : Decidable (AtMostOne l) :=
  inferInstanceAs (Decidable (l.countP Node.isText ≤ 1 ∧ l.countP Node.isAudio ≤ 1 ∧
    selectorCount l ≤ 1))

instance (p : Page) : Decidable p.Ready :=
  inferInstanceAs (Decidable (p.thumbnail.isSome = true ∧ p.thumbImg.isSome = true ∧
    AtMostOne p.siblings ∧ Plain p.siblings))

/-- The regions a successful run builds from a payload without markup, in the order it
places them on a page without regions. -/
def renderedRegions (url : String) (info : Info) : List Node :=
  [Node.textGroup info.title info.site info.limited_formats []] ++
  (if (info.formats.audio_only.getD []).length > 0 then [Node.audioGroup (some url)] else []) ++
  (if (allVideo info).length = 0 then []
   else [Node.qualityOptions (selectOptions (allVideo info)) (some url)])

/-- One event of the page: a run is started, or a suspended run gets its response. -/
inductive Action where
  | start (raw : String)
  | resolve (i : Nat) (resp : Fetched Info)

/-- The effect of one event. -/
def step (w : World) : Action → World
  | .start raw => downloadStart w raw
  | .resolve i resp => resolveAt i resp w

/-- The effect of a sequence of events. -/
def runActions (w : World) (as : List Action) : World := as.foldl step w

/-- No run is started while another one is suspended. -/
def sequentialFrom (w : World) : List Action → Bool
  | [] => true
  | .start raw :: as => w.pending.isEmpty && sequentialFrom (downloadStart w raw) as
  | .resolve i resp :: as => sequentialFrom (resolveAt i resp w) as

/-- The event brings no markup: it is no response, or a response whose `title` and `site`
hold no tag. -/
def Action.plain : Action → Bool
  | .start _ => true
  | .resolve _ (.rejected _) => true
  | .resolve _ (.response _ info) => info.markup.isEmpty

/-- The page a started run leaves at its await when the teardown found every region at most
once and no element inside a text-group: status reset, thumbnail hidden and cleared, regions
gone, other elements untouched. -/
def clearedPage (p : Page) : Page :=
  { statusHTML := analyzingHTML
    statusTextAlign := "center"
    thumbnail := some "none"
    thumbImg := some ""
    siblings := p.siblings.filter (fun n => !n.isRegion) }

/-- The page a successful response without markup leaves when no region was present at that
moment. -/
def renderedPage (url : String) (info : Info) (p : Page) : Page :=
  { statusHTML := "✅ Link analyzed successfully!"
    statusTextAlign := p.statusTextAlign
    thumbnail := if p.thumbImg.isSome then some "block" else p.thumbnail
    thumbImg := p.thumbImg.map (fun _ => str info.thumbnail)
    siblings := renderedRegions url info ++ p.siblings }

/-- The invariant of runs that do not overlap and bring no markup: no text-group holds an
element, and either nothing is suspended and each region occurs at most once, or exactly one
run is suspended and there is no region. -/
def Settled (w : World) : Prop :=
  Plain w.page.siblings ∧
  ((w.pending = [] ∧ AtMostOne w.page.siblings) ∨
   (∃ u, w.pending = [u] ∧ NoRegions w.page.siblings))

/-! ## Concrete inputs -/

/-- A page left by an earlier run: thumbnail shown, a text-group and an audio-group before
an unrelated element. -/
def demoPage : Page :=
  { statusHTML := "✅ Link analyzed successfully!"
    statusTextAlign := "center"
    thumbnail := some "block"
    thumbImg := some "old.jpg"
    siblings := [.textGroup "Old" "Site" false [], .audioGroup (some "https://old.example/v"),
      .other 0] }

/-- The page with an empty log and no suspended run. -/
def demoWorld : World := { page := demoPage, log := [], pending := [] }

/-- The response of the worked example: one audio format, one video-only format. -/
def demoInfo : Info :=
  { error := none
    title := "T"
    site := "S"
    thumbnail := some "x.jpg"
    limited_formats := true
    formats :=
      { audio_only := some [⟨"a1", none, none, none⟩]
        combined := some []
        video_only := some [⟨"v1", some "720p", some "mp4", none⟩] }
    markup := [] }

/-- A response with no thumbnail and no formats at all. -/
def bareInfo : Info :=
  { error := none
    title := "T"
    site := "S"
    thumbnail := none
    limited_formats := false
    formats := { audio_only := some [], combined := some [], video_only := some [] }
    markup := [] }

/-- The payload of the worked example with an `error` field holding the empty string. -/
def emptyErrorInfo : Info := { demoInfo with error := some "" }

/-- A response whose only video format has an id ending in a bar. -/
def barInfo : Info :=
  { error := none
    title := "T"
    site := "S"
    thumbnail := some "x.jpg"
    limited_formats := false
    formats :=
      { audio_only := some []
        combined := some [⟨"a|", some "720p", some "mp4", none⟩]
        video_only := some [] }
    markup := [] }

/-- A response with one combined format and no audio. -/
def videoInfo : Info :=
  { error := none
    title := "T"
    site := "S"
    thumbnail := some "x.jpg"
    limited_formats := false
    formats :=
      { audio_only := some []
        combined := some [⟨"18", some "360p", some "mp4", none⟩]
        video_only := some [] }
    markup := [] }

/-- The same response with a title that is an element with id `audio-group`. -/
def audioIdInfo : Info :=
  { videoInfo with title := "<b id=audio-group></b>", markup := [⟨0, .audioGroup⟩] }

/-- The same response with a title that is an element with id `quality-options`. -/
def qualityIdInfo : Info :=
  { videoInfo with title := "<i id=quality-options></i>", markup := [⟨0, .qualityOptions⟩] }

/-- A freshly loaded page: thumbnail hidden, no region, one unrelated element. -/
def freshWorld : World :=
  { page :=
      { statusHTML := ""
        statusTextAlign := ""
        thumbnail := some "none"
        thumbImg := some ""
        siblings := [.other 0] }
    log := []
    pending := [] }

/-- The page after two overlapping runs on the fresh page, both answered with the worked
example: every region is there twice and nothing is suspended. -/
def doubledWorld : World :=
  runActions freshWorld [.start "u1", .start "u2",
    .resolve 0 (.response true demoInfo), .resolve 0 (.response true demoInfo)]

/-! ## List lemmas -/

lemma eraseP_of_countP_le_one (p : Node → Bool) (l : List Node) (h : l.countP p ≤ 1) :
    l.eraseP p = l.filter (fun n => !p n) := by
  induction l with
  | nil => simp
  | cons a t ih =>
    by_cases ha : p a = true
    · have h0 : t.countP p = 0 := by
        rw [List.countP_cons_of_pos _ _ ha] at h; omega
      have hall : ∀ x ∈ t, ¬ p x = true := List.countP_eq_zero.mp h0
      have hfil : t.filter (fun n => !p n) = t := by
        apply List.filter_eq_self.mpr
        intro x hx; simpa using hall x hx
      simp [List.eraseP_cons_of_pos, ha, hfil]
    · have h1 : t.countP p ≤ 1 := by
        rw [List.countP_cons_of_neg _ _ ha] at h; exact h
      simp [ha, ih h1]

lemma countP_filter_le (p q : Node → Bool) (l : List Node) :
    (l.filter q).countP p ≤ l.countP p :=
  List.Sublist.countP_le _ (List.filter_sublist l)

lemma plain_of_subset {l l2 : List Node} (hs : ∀ n ∈ l2, n ∈ l) (h : Plain l) : Plain l2 :=
  fun n hn => h n (hs n hn)

lemma plain_eraseP (p : Node → Bool) (l : List Node) (h : Plain l) : Plain (l.eraseP p) :=
  plain_of_subset (fun _ hn => List.mem_of_mem_eraseP hn) h

lemma plain_filter (p : Node → Bool) (l : List Node) (h : Plain l) : Plain (l.filter p) :=
  plain_of_subset (fun _ hn => List.mem_of_mem_filter hn) h

lemma plain_cons {a : Node} {t : List Node} (h : Plain (a :: t)) : a.inner = [] ∧ Plain t :=
  ⟨h a (List.mem_cons_self _ _), fun n hn => h n (List.mem_cons_of_mem _ hn)⟩

lemma removeFirst_plain (top : Node → Bool) (inn : InnerKind → Bool) (l : List Node)
    (h : Plain l) : removeFirst top inn l = l.eraseP top := by
  induction l with
  | nil => rfl
  | cons a t ih =>
    obtain ⟨ha, ht⟩ := plain_cons h
    by_cases hp : top a = true
    · simp [removeFirst, hp]
    · cases a with
      | textGroup ti s l inner =>
        simp only [Node.inner] at ha
        subst ha
        simp [removeFirst, hp, removeInner, ih ht]
      | audioGroup o => simp [removeFirst, hp, ih ht]
      | qualityOptions o g => simp [removeFirst, hp, ih ht]
      | other k => simp [removeFirst, hp, ih ht]

lemma selectorCount_cons (a : Node) (t : List Node) :
    selectorCount (a :: t) = a.selectors + selectorCount t := by
  simp [selectorCount]

lemma selectorCount_append (l1 l2 : List Node) :
    selectorCount (l1 ++ l2) = selectorCount l1 + selectorCount l2 := by
  simp [selectorCount]

lemma selectorCount_plain (l : List Node) (h : Plain l) :
    selectorCount l = l.countP Node.isQuality := by
  induction l with
  | nil => rfl
  | cons a t ih =>
    obtain ⟨ha, ht⟩ := plain_cons h
    rw [selectorCount_cons, ih ht]
    cases a with
    | textGroup ti s l inner =>
      simp only [Node.inner] at ha
      subst ha
      simp [Node.selectors, Node.isQuality]
    | audioGroup o => simp [Node.selectors, Node.isQuality]
    | qualityOptions o g => simp [Node.selectors, Node.isQuality]; omega
    | other k => simp [Node.selectors, Node.isQuality]

lemma teardown_siblings (l : List Node) (h : AtMostOne l) (hp : Plain l) :
    removeFirst Node.isAudio InnerKind.isAudio
        ((removeFirst Node.isQuality InnerKind.isQuality l).eraseP Node.isText)
      = l.filter (fun n => !n.isRegion) := by
  obtain ⟨ht, ha, hq⟩ := h
  rw [selectorCount_plain l hp] at hq
  rw [removeFirst_plain _ _ _ hp,
    removeFirst_plain _ _ _ (plain_eraseP _ _ (plain_eraseP _ _ hp))]
  rw [eraseP_of_countP_le_one _ _ hq]
  rw [eraseP_of_countP_le_one _ _ (le_trans (countP_filter_le _ _ _) ht)]
  rw [eraseP_of_countP_le_one _ _
    (le_trans (countP_filter_le _ _ _) (le_trans (countP_filter_le _ _ _) ha))]
  rw [List.filter_filter, List.filter_filter]
  apply List.filter_congr
  intro n _
  cases n <;> simp [Node.isRegion, Node.isQuality, Node.isText, Node.isAudio]

lemma noRegions_filter (l : List Node) : NoRegions (l.filter (fun n => !n.isRegion)) := by
  intro n hn
  have := (List.mem_filter.mp hn).2
  simpa using this

lemma filter_of_noRegions (l : List Node) (h : NoRegions l) :
    l.filter (fun n => !n.isRegion) = l := by
  apply List.filter_eq_self.mpr
  intro n hn; simp [h n hn]

lemma plain_of_noRegions (l : List Node) (h : NoRegions l) : Plain l := by
  intro n hn
  have := h n hn
  cases n <;> simp_all [Node.isRegion, Node.isText, Node.inner]

lemma atMostOne_of_noRegions (l : List Node) (h : NoRegions l) : AtMostOne l := by
  have key : ∀ p : Node → Bool, (∀ n, p n = true → n.isRegion = true) → l.countP p = 0 := by
    intro p hp
    apply List.countP_eq_zero.mpr
    intro n hn hpn
    have := h n hn
    rw [hp n hpn] at this
    exact Bool.noConfusion this
  refine ⟨?_, ?_, ?_⟩
  · rw [key Node.isText (by intro n; cases n <;> simp [Node.isRegion, Node.isText])]; omega
  · rw [key Node.isAudio (by intro n; cases n <;> simp [Node.isRegion, Node.isAudio])]; omega
  · rw [selectorCount_plain l (plain_of_noRegions l h),
      key Node.isQuality (by intro n; cases n <;> simp [Node.isRegion, Node.isQuality])]
    omega

lemma eraseIdx_append_length (l : List String) (u : String) :
    (l ++ [u]).eraseIdx l.length = l := by
  induction l with
  | nil => rfl
  | cons a t ih => simp [List.eraseIdx, ih]

lemma get?_append_length (l : List String) (u : String) :
    (l ++ [u]).get? l.length = some u := by
  induction l with
  | nil => rfl
  | cons a t ih => simp [ih]

/-! ## The two halves of a run -/

lemma jsTrim_blank (raw : String) (h : ∀ c ∈ raw.data, isJsWhitespace c = true) :
    jsTrim raw = "" := by
  have h1 : raw.data.dropWhile isJsWhitespace = [] := List.dropWhile_eq_nil_iff.mpr h
  simp [jsTrim, h1]

lemma teardown_ready (p : Page) (h : p.Ready) :
    teardown p = .normal { p with
      thumbnail := some "none"
      thumbImg := some ""
      siblings := p.siblings.filter (fun n => !n.isRegion) } := by
  obtain ⟨ht, hi, hu, hpl⟩ := h
  obtain ⟨d, hd⟩ := Option.isSome_iff_exists.mp ht
  obtain ⟨e, he⟩ := Option.isSome_iff_exists.mp hi
  simp only [teardown, hd, he, teardown_siblings _ hu hpl]

lemma downloadStart_ready (w : World) (raw : String) (hurl : jsTrim raw ≠ "")
    (h : w.page.Ready) :
    downloadStart w raw =
      { page := clearedPage w.page
        log := w.log ++ [.fetch "/api/info" ⟨jsTrim raw, none, none⟩]
        pending := w.pending ++ [jsTrim raw] } := by
  have hr : Page.Ready { w.page with statusHTML := analyzingHTML, statusTextAlign := "center" } := h
  simp only [downloadStart, hurl, if_false, teardown_ready _ hr, clearedPage]

lemma insertAfterAudio_none (options : List SelectOption) (url : String) (l : List Node)
    (h : NoRegions l) : insertAfterAudio options url l = none := by
  induction l with
  | nil => rfl
  | cons a t ih =>
    have hat : NoRegions t := fun n hn => h n (List.mem_cons_of_mem _ hn)
    have ha := h a (List.mem_cons_self _ _)
    cases a <;> simp_all [insertAfterAudio, Node.isRegion, Node.isAudio, Node.isText,
      Node.isQuality]

lemma renderInfo_noRegions (url : String) (info : Info) (p : Page) (d : String)
    (hd : p.thumbnail = some d) (hm : info.markup = []) (h : NoRegions p.siblings) :
    renderInfo url info p = .normal (renderedPage url info p) := by
  have hq : ∀ o u, insertAfterAudio o u p.siblings = none :=
    fun o u => insertAfterAudio_none o u _ h
  cases hi : p.thumbImg <;>
  by_cases ha : (info.formats.audio_only.getD []).length > 0 <;>
  by_cases hv : (allVideo info).length = 0 <;>
  simp [renderInfo, placeRegions, afterText, renderedPage, renderedRegions, hd, hi, ha, hv, hm,
    setMp3Onclick, setInnerOnclick, insertAfterAudio, insertInner, hq]

lemma renderInfo_noThumbnail (url : String) (info : Info) (p : Page)
    (hd : p.thumbnail = none) :
    renderInfo url info p =
      .threw { p with statusHTML := "✅ Link analyzed successfully!" } nullAccessMessage := by
  simp [renderInfo, hd]

lemma resolveAt_last (w : World) (u : String) (resp : Fetched Info) (p : Page)
    (l : List Effect) :
    resolveAt w.pending.length resp { page := p, log := l, pending := w.pending ++ [u] }
      = { page := downloadResume u resp p, log := l, pending := w.pending } := by
  simp [resolveAt, get?_append_length, eraseIdx_append_length]

lemma download_ready (w : World) (raw : String) (resp : Fetched Info)
    (hurl : jsTrim raw ≠ "") (h : w.page.Ready) :
    download w raw resp =
      { page := downloadResume (jsTrim raw) resp (clearedPage w.page)
        log := w.log ++ [.fetch "/api/info" ⟨jsTrim raw, none, none⟩]
        pending := w.pending } := by
  rw [download, downloadStart_ready w raw hurl h, resolveAt_last]

lemma downloadResume_success (url : String) (info : Info) (p : Page)
    (herr : truthy info.error = false) (hm : info.markup = []) :
    downloadResume url (.response true info) (clearedPage p)
      = renderedPage url info (clearedPage p) := by
  have h := renderInfo_noRegions url info (clearedPage p) "none" rfl hm (noRegions_filter _)
  simp [downloadResume, herr, h]

lemma startsAt_iff (pat s : List Char) : startsAt pat s = true ↔ pat <+: s := by
  induction pat generalizing s with
  | nil => simp [startsAt]
  | cons p ps ih =>
    cases s with
    | nil => simp [startsAt]
    | cons c cs => simp [startsAt, ih, List.cons_prefix_cons]

lemma includesChars_iff (pat s : List Char) : includesChars pat s = true ↔ pat <:+: s := by
  induction s with
  | nil => simp [includesChars, List.isEmpty_iff]
  | cons c cs ih =>
    simp only [includesChars, Bool.or_eq_true, startsAt_iff, ih]
    rw [List.infix_cons_iff]

lemma downloadResume_siblings (url : String) (info : Info) (p : Page)
    (hd : p.thumbnail.isSome = true) (herr : truthy info.error = false) :
    (downloadResume url (.response true info) p).siblings = placeRegions url info p.siblings ∧
    (downloadResume url (.response true info) p).statusHTML
      = "✅ Link analyzed successfully!" := by
  obtain ⟨d, hd⟩ := Option.isSome_iff_exists.mp hd
  cases hi : p.thumbImg <;> simp [downloadResume, herr, renderInfo, hd, hi]

lemma download_present (w : World) (raw : String) (resp : Fetched Info)
    (hurl : jsTrim raw ≠ "") (ht : w.page.thumbnail.isSome = true)
    (hi : w.page.thumbImg.isSome = true) :
    downloadStart w raw =
      { page :=
          { statusHTML := analyzingHTML
            statusTextAlign := "center"
            thumbnail := some "none"
            thumbImg := some ""
            siblings := removeFirst Node.isAudio InnerKind.isAudio
              ((removeFirst Node.isQuality InnerKind.isQuality w.page.siblings).eraseP
                Node.isText) }
        log := w.log ++ [.fetch "/api/info" ⟨jsTrim raw, none, none⟩]
        pending := w.pending ++ [jsTrim raw] } ∧
    download w raw resp =
      { page := downloadResume (jsTrim raw) resp (downloadStart w raw).page
        log := w.log ++ [.fetch "/api/info" ⟨jsTrim raw, none, none⟩]
        pending := w.pending } := by
  obtain ⟨d, hd⟩ := Option.isSome_iff_exists.mp ht
  obtain ⟨e, he⟩ := Option.isSome_iff_exists.mp hi
  have hs : downloadStart w raw =
      { page :=
          { statusHTML := analyzingHTML
            statusTextAlign := "center"
            thumbnail := some "none"
            thumbImg := some ""
            siblings := removeFirst Node.isAudio InnerKind.isAudio
              ((removeFirst Node.isQuality InnerKind.isQuality w.page.siblings).eraseP
                Node.isText) }
        log := w.log ++ [.fetch "/api/info" ⟨jsTrim raw, none, none⟩]
        pending := w.pending ++ [jsTrim raw] } := by
    simp [downloadStart, hurl, teardown, hd, he]
  refine ⟨hs, ?_⟩
  rw [download, hs, resolveAt_last]

/-! ## Placing the regions: counts, head and selector -/

lemma setInnerOnclick_countP (url : String) (l l2 : List Inner)
    (h : setInnerOnclick url l = some l2) :
    l2.countP (fun x => x.kind.isSelector) = l.countP (fun x => x.kind.isSelector) := by
  induction l generalizing l2 with
  | nil => simp [setInnerOnclick] at h
  | cons e es ih =>
    obtain ⟨d, k⟩ := e
    cases k with
    | selector o g =>
      simp only [setInnerOnclick, Option.map_eq_some'] at h
      obtain ⟨r, hr, rfl⟩ := h
      simp [List.countP_cons, ih r hr]
    | markup id o =>
      cases id with
      | mp3Btn =>
        simp only [setInnerOnclick, Option.some.injEq] at h
        subst h
        simp [List.countP_cons, InnerKind.isSelector]
      | qualityOptions =>
        simp only [setInnerOnclick, Option.map_eq_some'] at h
        obtain ⟨r, hr, rfl⟩ := h
        simp [List.countP_cons, ih r hr]
      | audioGroup =>
        simp only [setInnerOnclick, Option.map_eq_some'] at h
        obtain ⟨r, hr, rfl⟩ := h
        simp [List.countP_cons, ih r hr]
      | other =>
        simp only [setInnerOnclick, Option.map_eq_some'] at h
        obtain ⟨r, hr, rfl⟩ := h
        simp [List.countP_cons, ih r hr]

lemma setMp3Onclick_counts (url : String) (l : List Node) :
    (setMp3Onclick url l).countP Node.isText = l.countP Node.isText ∧
    (setMp3Onclick url l).countP Node.isAudio = l.countP Node.isAudio ∧
    selectorCount (setMp3Onclick url l) = selectorCount l := by
  induction l with
  | nil => simp [setMp3Onclick]
  | cons a t ih =>
    obtain ⟨h1, h2, h3⟩ := ih
    cases a with
    | audioGroup o =>
      simp [setMp3Onclick, List.countP_cons, Node.isText, Node.isAudio, selectorCount_cons,
        Node.selectors]
    | textGroup ti s lim inner =>
      cases hin : setInnerOnclick url inner with
      | some r =>
        simp [setMp3Onclick, hin, List.countP_cons, Node.isText, Node.isAudio,
          selectorCount_cons, Node.selectors, setInnerOnclick_countP url inner r hin]
      | none =>
        simp [setMp3Onclick, hin, List.countP_cons, Node.isText, Node.isAudio,
          selectorCount_cons, Node.selectors, h1, h2, h3]
    | qualityOptions o g =>
      simp [setMp3Onclick, List.countP_cons, Node.isText, Node.isAudio, selectorCount_cons,
        Node.selectors, h1, h2, h3]
    | other k =>
      simp [setMp3Onclick, List.countP_cons, Node.isText, Node.isAudio, selectorCount_cons,
        Node.selectors, h1, h2, h3]

lemma insertInner_selector (o : List SelectOption) (g : Option String) (l l2 : List Inner)
    (h : insertInner (.selector o g) l = some l2) :
    l2.countP (fun x => x.kind.isSelector) = l.countP (fun x => x.kind.isSelector) + 1 ∧
    ∃ x ∈ l2, x.kind = .selector o g := by
  induction l generalizing l2 with
  | nil => simp [insertInner] at h
  | cons e es ih =>
    by_cases he : e.kind.isAudio = true
    · simp only [insertInner, he, if_true, Option.some.injEq] at h
      subst h
      have hc : es.countP (fun x => x.kind.isSelector)
          = (es.takeWhile (fun x => decide (e.depth < x.depth))).countP
              (fun x => x.kind.isSelector) +
            (es.dropWhile (fun x => decide (e.depth < x.depth))).countP
              (fun x => x.kind.isSelector) := by
        rw [← List.countP_append, List.takeWhile_append_dropWhile]
      constructor
      · rw [List.countP_cons, List.countP_append, List.countP_cons, List.countP_cons, hc]
        simp only [InnerKind.isSelector, if_true]
        omega
      · exact ⟨⟨e.depth, .selector o g⟩, by simp, rfl⟩
    · have he2 : e.kind.isAudio = false := by simpa using he
      simp only [insertInner, he2, Bool.false_eq_true, if_false, Option.map_eq_some'] at h
      obtain ⟨r, hr, rfl⟩ := h
      obtain ⟨h1, x, hx, hxk⟩ := ih r hr
      exact ⟨by simp [List.countP_cons, h1]; omega, x, List.mem_cons_of_mem _ hx, hxk⟩

lemma insertAfterAudio_some (options : List SelectOption) (url : String) (l ns : List Node)
    (h : insertAfterAudio options url l = some ns) :
    ns.countP Node.isText = l.countP Node.isText ∧
    ns.countP Node.isAudio = l.countP Node.isAudio ∧
    selectorCount ns = selectorCount l + 1 ∧
    ∃ n ∈ ns, n.holdsSelector options (some url) = true := by
  induction l generalizing ns with
  | nil => simp [insertAfterAudio] at h
  | cons a t ih =>
    cases a with
    | audioGroup o =>
      simp only [insertAfterAudio, Option.some.injEq] at h
      subst h
      refine ⟨?_, ?_, ?_, Node.qualityOptions options (some url), by simp, ?_⟩
      · simp [List.countP_cons, Node.isText]
      · simp [List.countP_cons, Node.isAudio]
      · simp [selectorCount_cons, Node.selectors]; omega
      · simp [Node.holdsSelector]
    | textGroup ti s lim inner =>
      cases hin : insertInner (.selector options (some url)) inner with
      | some r =>
        simp only [insertAfterAudio, hin, Option.some.injEq] at h
        subst h
        obtain ⟨hc, x, hx, hxk⟩ := insertInner_selector _ _ inner r hin
        refine ⟨?_, ?_, ?_, Node.textGroup ti s lim r, by simp, ?_⟩
        · simp [List.countP_cons, Node.isText]
        · simp [List.countP_cons, Node.isAudio]
        · simp [selectorCount_cons, Node.selectors, hc]; omega
        · simp only [Node.holdsSelector, List.any_eq_true, decide_eq_true_eq]
          exact ⟨x, hx, hxk⟩
      | none =>
        simp only [insertAfterAudio, hin, Option.map_eq_some'] at h
        obtain ⟨r, hr, rfl⟩ := h
        obtain ⟨h1, h2, h3, n, hn, hnh⟩ := ih r hr
        refine ⟨?_, ?_, ?_, n, List.mem_cons_of_mem _ hn, hnh⟩
        · simp [List.countP_cons, h1]
        · simp [List.countP_cons, h2]
        · simp [selectorCount_cons, h3]; omega
    | qualityOptions o g =>
      simp only [insertAfterAudio, Option.map_eq_some'] at h
      obtain ⟨r, hr, rfl⟩ := h
      obtain ⟨h1, h2, h3, n, hn, hnh⟩ := ih r hr
      refine ⟨?_, ?_, ?_, n, List.mem_cons_of_mem _ hn, hnh⟩
      · simp [List.countP_cons, h1]
      · simp [List.countP_cons, h2]
      · simp [selectorCount_cons, h3]; omega
    | other k =>
      simp only [insertAfterAudio, Option.map_eq_some'] at h
      obtain ⟨r, hr, rfl⟩ := h
      obtain ⟨h1, h2, h3, n, hn, hnh⟩ := ih r hr
      refine ⟨?_, ?_, ?_, n, List.mem_cons_of_mem _ hn, hnh⟩
      · simp [List.countP_cons, h1]
      · simp [List.countP_cons, h2]
      · simp [selectorCount_cons, h3]; omega

lemma markup_no_selector (ms : List Markup) :
    (ms.map fun m => (⟨m.depth, .markup m.id none⟩ : Inner)).countP
      (fun x => x.kind.isSelector) = 0 := by
  apply List.countP_eq_zero.mpr
  intro x hx
  obtain ⟨m, _, rfl⟩ := List.mem_map.mp hx
  simp [InnerKind.isSelector]

lemma placeRegions_eq (url : String) (info : Info) (rest : List Node) :
    placeRegions url info rest =
      if (allVideo info).length = 0 then afterText url info rest
      else
        match insertAfterAudio (selectOptions (allVideo info)) url (afterText url info rest) with
        | some ns => ns
        | none =>
          match afterText url info rest with
          | t :: ns => t :: .qualityOptions (selectOptions (allVideo info)) (some url) :: ns
          | [] => [.qualityOptions (selectOptions (allVideo info)) (some url)] := rfl

lemma afterText_spec (url : String) (info : Info) (rest : List Node) :
    (afterText url info rest).countP Node.isText = rest.countP Node.isText + 1 ∧
    (afterText url info rest).countP Node.isAudio = rest.countP Node.isAudio +
      (if info.formats.audio_only.getD [] = [] then 0 else 1) ∧
    selectorCount (afterText url info rest) = selectorCount rest ∧
    ∃ inner t, afterText url info rest
      = Node.textGroup info.title info.site info.limited_formats inner :: t := by
  by_cases ha : (info.formats.audio_only.getD []).length > 0
  · have hne : ¬ info.formats.audio_only.getD [] = [] := List.ne_nil_of_length_pos ha
    obtain ⟨h1, h2, h3⟩ := setMp3Onclick_counts url
      (Node.textGroup info.title info.site info.limited_formats
        (info.markup.map fun m => ⟨m.depth, .markup m.id none⟩) :: .audioGroup none :: rest)
    simp only [afterText, ha, if_true, hne, if_false]
    refine ⟨?_, ?_, ?_, ?_⟩
    · rw [h1]; simp [List.countP_cons, Node.isText]
    · rw [h2]; simp [List.countP_cons, Node.isAudio]
    · rw [h3]; simp [selectorCount_cons, Node.selectors, InnerKind.isSelector]
    · cases hin : setInnerOnclick url
          (info.markup.map fun m => (⟨m.depth, .markup m.id none⟩ : Inner)) with
      | some r => exact ⟨r, .audioGroup none :: rest, by simp [setMp3Onclick, hin]⟩
      | none =>
        exact ⟨info.markup.map fun m => ⟨m.depth, .markup m.id none⟩,
          .audioGroup (some url) :: rest, by simp [setMp3Onclick, hin]⟩
  · have he : info.formats.audio_only.getD [] = [] := by
      rw [gt_iff_lt, List.length_pos] at ha
      exact not_not.mp ha
    simp only [afterText, ha, if_false, he, if_true]
    refine ⟨?_, ?_, ?_, _, _, rfl⟩
    · simp [List.countP_cons, Node.isText]
    · simp [List.countP_cons, Node.isAudio]
    · simp [selectorCount_cons, Node.selectors, InnerKind.isSelector]

lemma allVideo_length (info : Info) :
    (allVideo info).length = 0 ↔
      info.formats.combined.getD [] ++ info.formats.video_only.getD [] = [] := by
  simp [allVideo]

lemma placeRegions_spec (url : String) (info : Info) (rest : List Node) :
    (placeRegions url info rest).countP Node.isText = rest.countP Node.isText + 1 ∧
    (placeRegions url info rest).countP Node.isAudio = rest.countP Node.isAudio +
      (if info.formats.audio_only.getD [] = [] then 0 else 1) ∧
    selectorCount (placeRegions url info rest) = selectorCount rest +
      (if info.formats.combined.getD [] ++ info.formats.video_only.getD [] = []
        then 0 else 1) ∧
    (∃ inner, (placeRegions url info rest).head?
      = some (Node.textGroup info.title info.site info.limited_formats inner)) ∧
    (¬ (allVideo info).length = 0 →
      ∃ n ∈ placeRegions url info rest,
        n.holdsSelector (selectOptions (allVideo info)) (some url) = true) := by
  obtain ⟨h1, h2, h3, inner, t, ht⟩ := afterText_spec url info rest
  rw [placeRegions_eq]
  by_cases hv : (allVideo info).length = 0
  · have he := (allVideo_length info).mp hv
    simp only [hv, if_true, he]
    exact ⟨h1, h2, by simpa using h3, ⟨inner, by rw [ht]; rfl⟩, fun h => absurd trivial h⟩
  · have he : ¬ info.formats.combined.getD [] ++ info.formats.video_only.getD [] = [] :=
      fun h => hv ((allVideo_length info).mpr h)
    simp only [hv, if_false, he]
    cases hins : insertAfterAudio (selectOptions (allVideo info)) url
        (afterText url info rest) with
    | some ns =>
      obtain ⟨g1, g2, g3, n, hn, hnh⟩ := insertAfterAudio_some _ _ _ ns hins
      refine ⟨by rw [g1, h1], by rw [g2, h2], by rw [g3, h3], ?_, fun _ => ⟨n, hn, hnh⟩⟩
      rw [ht] at hins
      cases hin : insertInner (.selector (selectOptions (allVideo info)) (some url)) inner with
      | some r =>
        simp only [insertAfterAudio, hin, Option.some.injEq] at hins
        subst hins
        exact ⟨r, rfl⟩
      | none =>
        simp only [insertAfterAudio, hin, Option.map_eq_some'] at hins
        obtain ⟨r, _, rfl⟩ := hins
        exact ⟨inner, rfl⟩
    | none =>
      rw [ht] at h1 h2 h3 ⊢
      simp only [List.countP_cons, selectorCount_cons] at h1 h2 h3 ⊢
      refine ⟨?_, ?_, ?_, ⟨inner, rfl⟩, fun _ =>
        ⟨Node.qualityOptions (selectOptions (allVideo info)) (some url), by simp, ?_⟩⟩
      · simp only [Node.isText] at h1 ⊢
        simpa using h1
      · simp only [Node.isAudio] at h2 ⊢
        simpa using h2
      · simp only [Node.selectors] at h3 ⊢
        omega
      · simp [Node.holdsSelector]

lemma selectorCount_pos (l : List Node) :
    0 < selectorCount l ↔ ∃ n ∈ l, n.hasSelector = true := by
  induction l with
  | nil => simp [selectorCount]
  | cons a t ih =>
    rw [selectorCount_cons]
    constructor
    · intro h
      by_cases ha : 0 < a.selectors
      · exact ⟨a, List.mem_cons_self _ _, by simp [Node.hasSelector, ha]⟩
      · obtain ⟨n, hn, hnh⟩ := ih.mp (by omega)
        exact ⟨n, List.mem_cons_of_mem _ hn, hnh⟩
    · rintro ⟨n, hn, hnh⟩
      rcases List.mem_cons.mp hn with rfl | hn
      · have : 0 < n.selectors := by simpa [Node.hasSelector] using hnh
        omega
      · have := ih.mpr ⟨n, hn, hnh⟩
        omega

/-! ## Placing the regions on a page without markup -/

lemma insertAfterAudio_text_nil (options : List SelectOption) (url ti s : String) (lim : Bool)
    (ns : List Node) :
    insertAfterAudio options url (.textGroup ti s lim [] :: ns)
      = (insertAfterAudio options url ns).map (.textGroup ti s lim [] :: ·) := by
  simp [insertAfterAudio, insertInner]

lemma insertAfterAudio_plain_perm (options : List SelectOption) (url : String)
    (l ns : List Node) (hp : Plain l) (h : insertAfterAudio options url l = some ns) :
    ns.Perm (Node.qualityOptions options (some url) :: l) := by
  induction l generalizing ns with
  | nil => simp [insertAfterAudio] at h
  | cons a t ih =>
    obtain ⟨ha, ht⟩ := plain_cons hp
    cases a with
    | audioGroup o =>
      simp only [insertAfterAudio, Option.some.injEq] at h
      subst h
      exact List.Perm.swap _ _ _
    | textGroup ti s lim inner =>
      simp only [Node.inner] at ha
      subst ha
      rw [insertAfterAudio_text_nil] at h
      simp only [Option.map_eq_some'] at h
      obtain ⟨ns2, h2, rfl⟩ := h
      exact ((ih ns2 ht h2).cons _).trans (List.Perm.swap _ _ _)
    | qualityOptions o g =>
      simp only [insertAfterAudio, Option.map_eq_some'] at h
      obtain ⟨ns2, h2, rfl⟩ := h
      exact ((ih ns2 ht h2).cons _).trans (List.Perm.swap _ _ _)
    | other k =>
      simp only [insertAfterAudio, Option.map_eq_some'] at h
      obtain ⟨ns2, h2, rfl⟩ := h
      exact ((ih ns2 ht h2).cons _).trans (List.Perm.swap _ _ _)

lemma placeRegions_plain (url : String) (info : Info) (rest : List Node)
    (hm : info.markup = []) (hp : Plain rest) :
    (placeRegions url info rest).Perm (renderedRegions url info ++ rest) ∧
    (placeRegions url info rest).head?
      = some (Node.textGroup info.title info.site info.limited_formats []) := by
  rw [placeRegions_eq]
  by_cases ha : (info.formats.audio_only.getD []).length > 0 <;>
  by_cases hv : (allVideo info).length = 0
  · simp [afterText, renderedRegions, ha, hv, hm, setMp3Onclick, setInnerOnclick]
  · simp only [afterText, renderedRegions, ha, hv, hm, if_true, if_false, setMp3Onclick,
      setInnerOnclick, List.map_nil, insertAfterAudio_text_nil, insertAfterAudio,
      Option.map_some']
    exact ⟨List.Perm.refl _, rfl⟩
  · simp [afterText, renderedRegions, ha, hv, hm]
  · simp only [afterText, renderedRegions, ha, hv, hm, if_false, List.map_nil,
      insertAfterAudio_text_nil]
    cases hins : insertAfterAudio (selectOptions (allVideo info)) url rest with
    | some ns =>
      simp only [Option.map_some']
      refine ⟨?_, rfl⟩
      simp only [List.singleton_append, List.cons_append, List.nil_append, List.append_nil]
      exact (insertAfterAudio_plain_perm _ _ _ ns hp hins).cons _
    | none =>
      simp only [Option.map_none']
      exact ⟨List.Perm.refl _, rfl⟩

lemma plain_rendered (url : String) (info : Info) (l : List Node) (h : Plain l) :
    Plain (renderedRegions url info ++ l) := by
  intro n hn
  rcases List.mem_append.mp hn with hn | hn
  · by_cases ha : (info.formats.audio_only.getD []).length > 0 <;>
    by_cases hv : (allVideo info).length = 0 <;>
    simp [renderedRegions, ha, hv] at hn <;>
    rcases hn with rfl | rfl | rfl <;> rfl
  · exact h n hn

/-! ## Runs that do not overlap -/

lemma clearedPage_ready (p : Page) : (clearedPage p).Ready :=
  ⟨rfl, rfl, atMostOne_of_noRegions _ (noRegions_filter _),
    plain_of_noRegions _ (noRegions_filter _)⟩

lemma atMostOne_of_settled (w : World) (h : Settled w) : AtMostOne w.page.siblings := by
  rcases h.2 with ⟨_, h⟩ | ⟨_, _, h⟩
  · exact h
  · exact atMostOne_of_noRegions _ h

lemma countP_isText_rendered (url : String) (info : Info) :
    (renderedRegions url info).countP Node.isText = 1 := by
  by_cases hau : (info.formats.audio_only.getD []).length > 0 <;>
  by_cases hv : (allVideo info).length = 0 <;>
  simp [renderedRegions, hau, hv, List.countP_cons, Node.isText]

lemma atMostOne_rendered (url : String) (info : Info) (l : List Node) (h : NoRegions l) :
    AtMostOne (renderedRegions url info ++ l) := by
  obtain ⟨ht, ha, _⟩ := atMostOne_of_noRegions l h
  have hpl := plain_rendered url info l (plain_of_noRegions l h)
  have ht0 : l.countP Node.isText = 0 := by
    apply List.countP_eq_zero.mpr
    intro n hn hnt
    have := h n hn
    cases n <;> simp_all [Node.isRegion, Node.isText]
  have ha0 : l.countP Node.isAudio = 0 := by
    apply List.countP_eq_zero.mpr
    intro n hn hnt
    have := h n hn
    cases n <;> simp_all [Node.isRegion, Node.isAudio]
  have hq0 : l.countP Node.isQuality = 0 := by
    apply List.countP_eq_zero.mpr
    intro n hn hnt
    have := h n hn
    cases n <;> simp_all [Node.isRegion, Node.isQuality]
  refine ⟨?_, ?_, ?_⟩
  · rw [List.countP_append, countP_isText_rendered, ht0]
  · by_cases hau : (info.formats.audio_only.getD []).length > 0 <;>
    by_cases hv : (allVideo info).length = 0 <;>
    simp [renderedRegions, hau, hv, List.countP_append, List.countP_cons, ha0, Node.isAudio]
  · rw [selectorCount_plain _ hpl]
    by_cases hau : (info.formats.audio_only.getD []).length > 0 <;>
    by_cases hv : (allVideo info).length = 0 <;>
    simp [renderedRegions, hau, hv, List.countP_append, List.countP_cons, hq0, Node.isQuality]

lemma downloadResume_settled (url : String) (resp : Fetched Info) (p : Page)
    (hm : ∀ ok info, resp = .response ok info → info.markup = [])
    (h : NoRegions p.siblings) :
    AtMostOne (downloadResume url resp p).siblings ∧
    Plain (downloadResume url resp p).siblings := by
  have h0 := atMostOne_of_noRegions _ h
  have hp0 := plain_of_noRegions _ h
  cases resp with
  | rejected m => exact ⟨h0, hp0⟩
  | response ok info =>
    by_cases hf : (!ok || truthy info.error) = true
    · simp only [downloadResume, hf, if_true]; exact ⟨h0, hp0⟩
    · simp only [downloadResume, hf]
      cases hd : p.thumbnail with
      | none => rw [renderInfo_noThumbnail _ _ _ hd]; exact ⟨h0, hp0⟩
      | some d =>
        rw [renderInfo_noRegions _ _ _ d hd (hm ok info rfl) h]
        exact ⟨atMostOne_rendered _ _ _ h, plain_rendered _ _ _ hp0⟩

lemma settled_start (w : World) (raw : String) (hp : w.pending = [])
    (hu : AtMostOne w.page.siblings) (hpl : Plain w.page.siblings) :
    Settled (downloadStart w raw) := by
  by_cases hurl : jsTrim raw = ""
  · refine ⟨by simpa [downloadStart, hurl] using hpl, Or.inl ?_⟩
    simp [downloadStart, hurl, hp, hu]
  · cases hd : w.page.thumbnail with
    | none =>
      refine ⟨?_, Or.inr ⟨jsTrim raw, ?_, ?_⟩⟩
      · simp only [downloadStart, hurl, if_false, teardown, hd]
        rw [teardown_siblings _ hu hpl]
        exact plain_filter _ _ hpl
      · simp [downloadStart, hurl, teardown, hd, hp]
      · simp only [downloadStart, hurl, if_false, teardown, hd]
        rw [teardown_siblings _ hu hpl]
        exact noRegions_filter _
    | some d =>
      cases hi : w.page.thumbImg with
      | none =>
        refine ⟨by simpa [downloadStart, hurl, teardown, hd, hi] using hpl, Or.inl ?_⟩
        simp [downloadStart, hurl, teardown, hd, hi, hp, hu]
      | some e =>
        refine ⟨?_, Or.inr ⟨jsTrim raw, ?_, ?_⟩⟩
        · simp only [downloadStart, hurl, if_false, teardown, hd, hi]
          rw [teardown_siblings _ hu hpl]
          exact plain_filter _ _ hpl
        · simp [downloadStart, hurl, teardown, hd, hi, hp]
        · simp only [downloadStart, hurl, if_false, teardown, hd, hi]
          rw [teardown_siblings _ hu hpl]
          exact noRegions_filter _

lemma settled_resolve (w : World) (i : Nat) (resp : Fetched Info)
    (hm : ∀ ok info, resp = .response ok info → info.markup = []) (h : Settled w) :
    Settled (resolveAt i resp w) := by
  obtain ⟨hpl, h⟩ := h
  rcases h with ⟨hp, hu⟩ | ⟨u, hp, hn⟩
  · have : resolveAt i resp w = w := by simp [resolveAt, hp]
    rw [this]; exact ⟨hpl, Or.inl ⟨hp, hu⟩⟩
  · cases i with
    | zero =>
      obtain ⟨h1, h2⟩ := downloadResume_settled u resp _ hm hn
      refine ⟨?_, Or.inl ?_⟩
      · simpa [resolveAt, hp] using h2
      · simpa [resolveAt, hp] using h1
    | succ k =>
      have : resolveAt (k + 1) resp w = w := by simp [resolveAt, hp]
      rw [this]; exact ⟨hpl, Or.inr ⟨u, hp, hn⟩⟩

lemma settled_runActions (as : List Action) (w : World) (h : Settled w)
    (hs : sequentialFrom w as = true) (hm : ∀ a ∈ as, a.plain = true) :
    Settled (runActions w as) := by
  induction as generalizing w with
  | nil => exact h
  | cons a t ih =>
    have hmt : ∀ b ∈ t, b.plain = true := fun b hb => hm b (List.mem_cons_of_mem _ hb)
    have hma := hm a (List.mem_cons_self _ _)
    cases a with
    | start raw =>
      simp only [sequentialFrom, Bool.and_eq_true, List.isEmpty_iff] at hs
      have hu := atMostOne_of_settled w h
      exact ih _ (settled_start w raw hs.1 hu h.1) hs.2 hmt
    | resolve i resp =>
      simp only [sequentialFrom] at hs
      refine ih _ (settled_resolve w i resp ?_ h) hs hmt
      intro ok info hr
      subst hr
      simpa [Action.plain, List.isEmpty_iff] using hma

/-! ## Two overlapping runs -/

lemma two_resumes (p : Page) (u1 u2 : String) (i1 i2 : Info)
    (h1 : truthy i1.error = false) (h2 : truthy i2.error = false)
    (hm1 : i1.markup = []) (hm2 : i2.markup = []) :
    (downloadResume u2 (.response true i2)
      (downloadResume u1 (.response true i1) (clearedPage p))).siblings.countP Node.isText = 2 ∧
    (downloadResume u2 (.response true i2)
      (downloadResume u1 (.response true i1) (clearedPage p))).siblings.head?
        = some (Node.textGroup i2.title i2.site i2.limited_formats []) ∧
    Node.textGroup i1.title i1.site i1.limited_formats [] ∈
      (downloadResume u2 (.response true i2)
        (downloadResume u1 (.response true i1) (clearedPage p))).siblings ∧
    (downloadResume u2 (.response true i2)
      (downloadResume u1 (.response true i1) (clearedPage p))).statusHTML
        = "✅ Link analyzed successfully!" ∧
    (downloadResume u2 (.response true i2)
      (downloadResume u1 (.response true i1) (clearedPage p))).thumbnail = some "block" ∧
    (downloadResume u2 (.response true i2)
      (downloadResume u1 (.response true i1) (clearedPage p))).thumbImg
        = some (str i2.thumbnail) ∧
    (downloadResume u2 (.response true i2)
      (downloadResume u1 (.response true i1) (clearedPage p))).siblings.Perm
        (renderedRegions u2 i2 ++ (renderedRegions u1 i1 ++ (clearedPage p).siblings)) := by
  rw [downloadResume_success _ _ _ h1 hm1]
  have hsecond : downloadResume u2 (.response true i2) (renderedPage u1 i1 (clearedPage p))
      = { statusHTML := "✅ Link analyzed successfully!"
          statusTextAlign := "center"
          thumbnail := some "block"
          thumbImg := some (str i2.thumbnail)
          siblings := placeRegions u2 i2
            (renderedRegions u1 i1 ++ (clearedPage p).siblings) } := by
    simp [downloadResume, h2, renderInfo, renderedPage, clearedPage]
  rw [hsecond]
  have hnr : NoRegions (clearedPage p).siblings := noRegions_filter p.siblings
  have hpl : Plain (renderedRegions u1 i1 ++ (clearedPage p).siblings) :=
    plain_rendered _ _ _ (plain_of_noRegions _ hnr)
  obtain ⟨hperm, hhead⟩ := placeRegions_plain u2 i2 _ hm2 hpl
  have ht0 : (clearedPage p).siblings.countP Node.isText = 0 := by
    apply List.countP_eq_zero.mpr
    intro n hn hnt
    have := hnr n hn
    cases n <;> simp_all [Node.isRegion, Node.isText]
  refine ⟨?_, hhead, ?_, rfl, rfl, rfl, hperm⟩
  · show (placeRegions u2 i2 (renderedRegions u1 i1 ++ (clearedPage p).siblings)).countP
      Node.isText = 2
    rw [hperm.countP_eq, List.countP_append, List.countP_append, countP_isText_rendered,
      countP_isText_rendered, ht0]
  · apply hperm.mem_iff.mpr
    simp [renderedRegions]

lemma overlap_pages (w : World) (rawA rawB : String) (rA rB : Fetched Info)
    (hp : w.pending = []) (hr : w.page.Ready)
    (hA : jsTrim rawA ≠ "") (hB : jsTrim rawB ≠ "") :
    (runActions w [.start rawA, .start rawB, .resolve 0 rA, .resolve 0 rB]).page
      = downloadResume (jsTrim rawB) rB
          (downloadResume (jsTrim rawA) rA (clearedPage (clearedPage w.page))) ∧
    (runActions w [.start rawA, .start rawB, .resolve 1 rB, .resolve 0 rA]).page
      = downloadResume (jsTrim rawA) rA
          (downloadResume (jsTrim rawB) rB (clearedPage (clearedPage w.page))) := by
  have h1 := downloadStart_ready w rawA hA hr
  have h2 := downloadStart_ready (downloadStart w rawA) rawB hB
    (by rw [h1]; exact clearedPage_ready _)
  simp only [runActions, List.foldl, step]
  rw [h2, h1, hp]
  constructor <;> simp [resolveAt]

/-! ## Empty input -/

/-- C1: for an input that is empty or consists only of whitespace, `download()` shows the
input prompt and does nothing else: no request is issued or left pending, and the page
(status, thumbnail, text-group, audio-group, quality-options) is exactly as before. -/
theorem download_blank_input_only_prompts (w : World) (raw : String) (resp : Fetched Info)
    (h : ∀ c ∈ raw.data, isJsWhitespace c = true) :
    downloadStart w raw = { w with log := w.log ++ [.alert "Please enter a media URL."] } ∧
    download w raw resp = { w with log := w.log ++ [.alert "Please enter a media URL."] } ∧
    (download w raw resp).page = w.page ∧
    (download w raw resp).pending = w.pending ∧
    (download w raw resp).log.filter Effect.isFetch = w.log.filter Effect.isFetch := by
  have hs : downloadStart w raw
      = { w with log := w.log ++ [.alert "Please enter a media URL."] } := by
    simp [downloadStart, jsTrim_blank raw h]
  have hd : download w raw resp
      = { w with log := w.log ++ [.alert "Please enter a media URL."] } := by
    simp [download, hs, resolveAt]
  refine ⟨hs, hd, ?_, ?_, ?_⟩ <;> rw [hd]
  simp [Effect.isFetch]

/-- C1 at the input `" \t\n"` on the demo page. -/
theorem download_blank_input_only_prompts_witness :
    (∀ c ∈ " \t\n".data, isJsWhitespace c = true) ∧
    download demoWorld " \t\n" (.response true demoInfo)
      = { demoWorld with log := [.alert "Please enter a media URL."] } :=
  ⟨by decide,
   (download_blank_input_only_prompts demoWorld " \t\n" (.response true demoInfo)
      (by decide)).2.1⟩

/-! ## Teardown -/

lemma teardown_ready_page (w : World) (raw : String)
    (hurl : jsTrim raw ≠ "") (h : w.page.Ready) :
    teardown { w.page with statusHTML := analyzingHTML, statusTextAlign := "center" }
      = .normal (clearedPage w.page) ∧
    NoRegions (clearedPage w.page).siblings ∧
    downloadStart w raw =
      { page := clearedPage w.page
        log := w.log ++ [.fetch "/api/info" ⟨jsTrim raw, none, none⟩]
        pending := w.pending ++ [jsTrim raw] } ∧
    teardown (clearedPage w.page) = .normal (clearedPage w.page) := by
  have hr : Page.Ready { w.page with statusHTML := analyzingHTML, statusTextAlign := "center" } := h
  refine ⟨?_, noRegions_filter _, downloadStart_ready w raw hurl h, ?_⟩
  · rw [teardown_ready _ hr]; rfl
  · rw [teardown_ready _ (clearedPage_ready w.page)]
    simp [clearedPage]

/-- C5: the code does not do what the claim and its own comment `Clear old UI` say.  On the
page left by two overlapping runs, which holds every region twice, the teardown of a third
run with the non-empty URL `u3` removes only the first text-group, audio-group and
quality-options element: the `/api/info` request is issued and the run suspends with one of
each still present, and a second teardown changes the page again. -/
theorem teardown_leaves_doubled_regions :
    doubledWorld.pending = [] ∧
    doubledWorld.page.thumbnail = some "block" ∧
    doubledWorld.page.thumbImg = some "x.jpg" ∧
    doubledWorld.page.siblings =
      [.textGroup "T" "S" true [], .audioGroup (some "u2"),
       .qualityOptions [⟨"", "Select Video Quality", true⟩,
          ⟨"v1||video_only", "720p (mp4) ", false⟩] (some "u2"),
       .textGroup "T" "S" true [], .audioGroup (some "u1"),
       .qualityOptions [⟨"", "Select Video Quality", true⟩,
          ⟨"v1||video_only", "720p (mp4) ", false⟩] (some "u1"),
       .other 0] ∧
    downloadStart doubledWorld "u3" =
      { page :=
          { statusHTML := analyzingHTML
            statusTextAlign := "center"
            thumbnail := some "none"
            thumbImg := some ""
            siblings :=
              [.textGroup "T" "S" true [], .audioGroup (some "u1"),
               .qualityOptions [⟨"", "Select Video Quality", true⟩,
          ⟨"v1||video_only", "720p (mp4) ", false⟩] (some "u1"),
               .other 0] }
        log := doubledWorld.log ++ [.fetch "/api/info" ⟨"u3", none, none⟩]
        pending := ["u3"] } ∧
    teardown (downloadStart doubledWorld "u3").page =
      .normal { (downloadStart doubledWorld "u3").page with siblings := [.other 0] } := by
  decide

/-! ## Rendering a successful response -/

/-- C6, as stated, fails in three ways.  A title that is an element with id `audio-group`
makes line 146 put the selector inside the text-group.  On the page left by two overlapping
runs the order after a further run is text, text, audio, selector, selector.  On the page
left by a run whose title was an element with id `quality-options`, the next run leaves the
order text, selector, selector. -/
theorem selector_misplaced_by_markup_or_leftovers :
    (download freshWorld "u" (.response true audioIdInfo)).page.siblings =
      [.textGroup "<b id=audio-group></b>" "S" false
          [⟨0, .markup .audioGroup none⟩, ⟨0, .selector [⟨"", "Select Video Quality", true⟩, ⟨"18||combined", "360p (mp4) ", false⟩] (some "u")⟩],
       .other 0] ∧
    (download doubledWorld "u3" (.response true videoInfo)).page.siblings =
      [.textGroup "T" "S" false [], .textGroup "T" "S" true [], .audioGroup (some "u1"),
       .qualityOptions [⟨"", "Select Video Quality", true⟩, ⟨"18||combined", "360p (mp4) ", false⟩] (some "u3"),
       .qualityOptions [⟨"", "Select Video Quality", true⟩,
          ⟨"v1||video_only", "720p (mp4) ", false⟩] (some "u1"),
       .other 0] ∧
    (download freshWorld "u1" (.response true qualityIdInfo)).page.siblings =
      [.textGroup "<i id=quality-options></i>" "S" false [⟨0, .markup .qualityOptions none⟩],
       .qualityOptions [⟨"", "Select Video Quality", true⟩, ⟨"18||combined", "360p (mp4) ", false⟩] (some "u1"),
       .other 0] ∧
    (download (download freshWorld "u1" (.response true qualityIdInfo)) "u2"
        (.response true videoInfo)).page.siblings =
      [.textGroup "T" "S" false [],
       .qualityOptions [⟨"", "Select Video Quality", true⟩, ⟨"18||combined", "360p (mp4) ", false⟩] (some "u2"),
       .qualityOptions [⟨"", "Select Video Quality", true⟩, ⟨"18||combined", "360p (mp4) ", false⟩] (some "u1"),
       .other 0] := by
  decide

/-- C6, amended: on whatever page with a thumbnail a successful response arrives, handling
it puts the text region immediately after the thumbnail, for every value of the thumbnail
field.  When moreover `title` and `site` hold no markup and the page before the run has the
thumbnail and its image, holds each region at most once and no element inside a text-group,
the elements following the thumbnail after the run are, in order: the text region, then the
audio affordance if one was created, then the quality selector if one was created, then the
elements that were there before, none of them a region. -/
theorem regions_follow_thumbnail_in_order (raw : String) (info : Info)
    (hurl : jsTrim raw ≠ "") (herr : truthy info.error = false) :
    (∀ p : Page, p.thumbnail.isSome = true →
      ∃ inner, (downloadResume (jsTrim raw) (.response true info) p).siblings.head?
        = some (Node.textGroup info.title info.site info.limited_formats inner)) ∧
    (∀ w : World, w.page.Ready → info.markup = [] →
      (download w raw (.response true info)).page.siblings =
        [Node.textGroup info.title info.site info.limited_formats []] ++
        (if (info.formats.audio_only.getD []).length > 0
          then [Node.audioGroup (some (jsTrim raw))] else []) ++
        (if (allVideo info).length = 0 then []
          else [Node.qualityOptions (selectOptions (allVideo info)) (some (jsTrim raw))]) ++
        w.page.siblings.filter (fun n => !n.isRegion) ∧
      NoRegions (w.page.siblings.filter (fun n => !n.isRegion))) := by
  constructor
  · intro p hd
    rw [(downloadResume_siblings (jsTrim raw) info p hd herr).1]
    exact (placeRegions_spec (jsTrim raw) info p.siblings).2.2.2.1
  · intro w h hm
    refine ⟨?_, noRegions_filter _⟩
    rw [download_ready w raw _ hurl h, downloadResume_success _ _ _ herr hm]
    rfl

/-- C6 amended, on the worked example: text, audio button, selector, then the unrelated
element. -/
theorem regions_follow_thumbnail_in_order_witness :
    jsTrim " https://example.com/v " ≠ "" ∧ truthy demoInfo.error = false ∧
    demoWorld.page.Ready ∧ demoInfo.markup = [] ∧
    (download demoWorld " https://example.com/v " (.response true demoInfo)).page.siblings =
      [.textGroup "T" "S" true [], .audioGroup (some "https://example.com/v"),
       .qualityOptions [⟨"", "Select Video Quality", true⟩,
          ⟨"v1||video_only", "720p (mp4) ", false⟩] (some "https://example.com/v"),
       .other 0] :=
  ⟨by decide, by decide, by decide, by decide,
   ((regions_follow_thumbnail_in_order " https://example.com/v " demoInfo
      (by decide) (by decide)).2 demoWorld (by decide) (by decide)).1⟩

/-- C7: after a run with a successful response (page with thumbnail and image, each region
at most once and no element inside a text-group before the run) an audio affordance is on
the page exactly when `audio_only` is non-empty and a quality selector, as a sibling or
inside a text-group, exactly when `combined ++ video_only` is non-empty; the status shows
the success line in every case, in particular when all three lists are empty and neither
element is created.  On whatever page (with a thumbnail) the response arrives, handling it
adds one audio-group exactly when `audio_only` is non-empty and one quality selector exactly
when `combined ++ video_only` is non-empty. -/
theorem affordances_iff_formats_nonempty (w : World) (raw : String) (info : Info)
    (hurl : jsTrim raw ≠ "") (h : w.page.Ready) (herr : truthy info.error = false) :
    ((∃ n ∈ (download w raw (.response true info)).page.siblings, n.isAudio = true) ↔
      info.formats.audio_only.getD [] ≠ []) ∧
    ((∃ n ∈ (download w raw (.response true info)).page.siblings, n.hasSelector = true) ↔
      info.formats.combined.getD [] ++ info.formats.video_only.getD [] ≠ []) ∧
    (download w raw (.response true info)).page.statusHTML = "✅ Link analyzed successfully!" ∧
    (info.formats.audio_only.getD [] = [] → info.formats.combined.getD [] = [] →
      info.formats.video_only.getD [] = [] →
      (∀ n ∈ (download w raw (.response true info)).page.siblings,
        n.isAudio = false ∧ n.hasSelector = false) ∧
      (download w raw (.response true info)).page.statusHTML
        = "✅ Link analyzed successfully!") ∧
    (∀ p : Page, p.thumbnail.isSome = true →
      (downloadResume (jsTrim raw) (.response true info) p).siblings.countP Node.isAudio
        = p.siblings.countP Node.isAudio +
          (if info.formats.audio_only.getD [] = [] then 0 else 1) ∧
      selectorCount (downloadResume (jsTrim raw) (.response true info) p).siblings
        = selectorCount p.siblings +
          (if info.formats.combined.getD [] ++ info.formats.video_only.getD [] = []
            then 0 else 1) ∧
      (downloadResume (jsTrim raw) (.response true info) p).statusHTML
        = "✅ Link analyzed successfully!") := by
  have hgen : ∀ p : Page, p.thumbnail.isSome = true →
      (downloadResume (jsTrim raw) (.response true info) p).siblings.countP Node.isAudio
        = p.siblings.countP Node.isAudio +
          (if info.formats.audio_only.getD [] = [] then 0 else 1) ∧
      selectorCount (downloadResume (jsTrim raw) (.response true info) p).siblings
        = selectorCount p.siblings +
          (if info.formats.combined.getD [] ++ info.formats.video_only.getD [] = []
            then 0 else 1) ∧
      (downloadResume (jsTrim raw) (.response true info) p).statusHTML
        = "✅ Link analyzed successfully!" := by
    intro p hd
    obtain ⟨h1, h2⟩ := downloadResume_siblings (jsTrim raw) info p hd herr
    obtain ⟨_, ha, hq, _⟩ := placeRegions_spec (jsTrim raw) info p.siblings
    rw [h1]
    exact ⟨ha, hq, h2⟩
  have hpage : (download w raw (.response true info)).page
      = downloadResume (jsTrim raw) (.response true info) (clearedPage w.page) := by
    rw [download_ready w raw _ hurl h]
  obtain ⟨gA, gQ, gS⟩ := hgen (clearedPage w.page) rfl
  have hnr : NoRegions (clearedPage w.page).siblings := noRegions_filter _
  have ha0 : (clearedPage w.page).siblings.countP Node.isAudio = 0 := by
    apply List.countP_eq_zero.mpr
    intro n hn hnt
    have := hnr n hn
    cases n <;> simp_all [Node.isRegion, Node.isAudio]
  have hq0 : selectorCount (clearedPage w.page).siblings = 0 := by
    rw [selectorCount_plain _ (plain_of_noRegions _ hnr)]
    apply List.countP_eq_zero.mpr
    intro n hn hnt
    have := hnr n hn
    cases n <;> simp_all [Node.isRegion, Node.isQuality]
  rw [ha0] at gA
  rw [hq0] at gQ
  rw [hpage]
  have hA : (∃ n ∈ (downloadResume (jsTrim raw) (.response true info)
      (clearedPage w.page)).siblings, n.isAudio = true) ↔
      info.formats.audio_only.getD [] ≠ [] := by
    rw [← List.countP_pos_iff, gA]
    by_cases hne : info.formats.audio_only.getD [] = [] <;> simp [hne]
  have hQ : (∃ n ∈ (downloadResume (jsTrim raw) (.response true info)
      (clearedPage w.page)).siblings, n.hasSelector = true) ↔
      info.formats.combined.getD [] ++ info.formats.video_only.getD [] ≠ [] := by
    rw [← selectorCount_pos, gQ]
    by_cases hne : info.formats.combined.getD [] ++ info.formats.video_only.getD [] = []
    · rw [if_pos hne]; exact ⟨fun h => absurd h (by omega), fun h => absurd hne h⟩
    · rw [if_neg hne]; exact ⟨fun _ => hne, fun _ => by omega⟩
  refine ⟨hA, hQ, gS, ?_, hgen⟩
  intro ha hc hvo
  refine ⟨?_, gS⟩
  intro n hn
  constructor
  · by_contra hcon
    have : n.isAudio = true := by simpa using hcon
    exact (hA.mp ⟨n, hn, this⟩) ha
  · by_contra hcon
    have : n.hasSelector = true := by simpa using hcon
    exact (hQ.mp ⟨n, hn, this⟩) (by simp [hc, hvo])

/-- C7 on a response whose three format lists are empty: only the text region is added. -/
theorem affordances_iff_formats_nonempty_witness :
    jsTrim "u" ≠ "" ∧ demoWorld.page.Ready ∧ truthy bareInfo.error = false ∧
    (∀ n ∈ (download demoWorld "u" (.response true bareInfo)).page.siblings,
      n.isAudio = false ∧ n.hasSelector = false) ∧
    (download demoWorld "u" (.response true bareInfo)).page.statusHTML
      = "✅ Link analyzed successfully!" :=
  ⟨by decide, by decide, by decide,
   (affordances_iff_formats_nonempty demoWorld "u" bareInfo
      (by decide) (by decide) (by decide)).2.2.2.1 rfl rfl rfl⟩

/-! ## Splitting a packed option value -/

lemma splitGo_no_match (sep : List Char) (s cur : List Char)
    (h : includesChars sep s = false) : splitGo sep 0 cur s = [cur.reverse ++ s] := by
  induction s generalizing cur with
  | nil => simp [splitGo]
  | cons c cs ih =>
    simp only [includesChars, Bool.or_eq_false_iff] at h
    simp [splitGo, h.1, ih (c :: cur) h.2]

lemma splitGo_packed (id kind cur : List Char)
    (h1 : includesChars ['|', '|'] id = false) (h2 : id.getLast? ≠ some '|') :
    splitGo ['|', '|'] 0 cur (id ++ '|' :: '|' :: kind)
      = (cur.reverse ++ id) :: splitGo ['|', '|'] 0 [] kind := by
  induction id generalizing cur with
  | nil => simp [splitGo, startsAt]
  | cons c t ih =>
    simp only [includesChars, Bool.or_eq_false_iff] at h1
    have hlast : t.getLast? ≠ some '|' := by
      cases t with
      | nil => simp
      | cons d t2 => simpa [List.getLast?_cons_cons] using h2
    have hno : startsAt ['|', '|'] (c :: (t ++ '|' :: '|' :: kind)) = false := by
      cases t with
      | nil =>
        have hc : c ≠ '|' := by
          intro hc; apply h2; simp [hc]
        simp [startsAt, Ne.symm hc]
      | cons d t2 =>
        have := h1.1
        simpa [startsAt] using this
    have hstep : splitGo ['|', '|'] 0 cur (c :: (t ++ '|' :: '|' :: kind))
        = splitGo ['|', '|'] 0 (c :: cur) (t ++ '|' :: '|' :: kind) := by
      simp [splitGo, hno]
    rw [List.cons_append, hstep, ih (c :: cur) h1.2 hlast]
    simp

lemma jsSplit_packed (id kind : String)
    (h1 : jsIncludes id "||" = false) (h2 : jsEndsWith id '|' = false)
    (h3 : jsIncludes kind "||" = false) :
    jsSplit (id ++ "||" ++ kind) "||" = [id, kind] := by
  have hd : (id ++ "||" ++ kind).data = id.data ++ '|' :: '|' :: kind.data := by
    simp [String.data_append]
  have hl : id.data.getLast? ≠ some '|' := by
    simpa [jsEndsWith] using h2
  have hsep : ("||" : String).data = ['|', '|'] := rfl
  unfold jsSplit
  rw [hd, hsep, splitGo_packed id.data kind.data [] h1 hl,
    splitGo_no_match _ _ _ h3]
  simp

lemma jsSplit_unsplittable (value : String) (h : jsIncludes value "||" = false) :
    jsSplit value "||" = [value] := by
  unfold jsSplit
  rw [splitGo_no_match _ _ _ h]
  simp

/-! ## Thumbnail -/

/-- C9, as stated, fails: a successful response without a thumbnail field still makes the
thumbnail region visible, its image source set to the text `undefined`. -/
theorem thumbnail_shown_without_url :
    bareInfo.thumbnail = none ∧ truthy bareInfo.error = false ∧
    (download demoWorld "u" (.response true bareInfo)).page.thumbnail = some "block" ∧
    (download demoWorld "u" (.response true bareInfo)).page.thumbImg = some "undefined" := by
  decide

/-- C9, amended: after a run with a successful response on a page that has the thumbnail
and its image, the thumbnail region is visible and its image source is the response's
thumbnail field, whether or not that field carries a URL. -/
theorem thumbnail_shown_on_every_success (w : World) (raw : String) (info : Info)
    (hurl : jsTrim raw ≠ "") (ht : w.page.thumbnail.isSome = true)
    (hi : w.page.thumbImg.isSome = true) (herr : truthy info.error = false) :
    (download w raw (.response true info)).page.thumbnail = some "block" ∧
    (download w raw (.response true info)).page.thumbImg = some (str info.thumbnail) := by
  obtain ⟨hs, hd⟩ := download_present w raw (.response true info) hurl ht hi
  rw [hd, hs]
  simp [downloadResume, herr, renderInfo]

/-- C9 amended, on the worked example. -/
theorem thumbnail_shown_on_every_success_witness :
    jsTrim "u" ≠ "" ∧ demoWorld.page.thumbnail.isSome = true ∧
    demoWorld.page.thumbImg.isSome = true ∧ truthy demoInfo.error = false ∧
    (download demoWorld "u" (.response true demoInfo)).page.thumbnail = some "block" ∧
    (download demoWorld "u" (.response true demoInfo)).page.thumbImg = some "x.jpg" :=
  ⟨by decide, by decide, by decide, by decide,
   thumbnail_shown_on_every_success demoWorld "u" demoInfo (by decide) (by decide)
      (by decide) (by decide)⟩

/-! ## Failed analysis -/

lemma error_ne_success (m : String) :
    "❌ Error: " ++ m ≠ "✅ Link analyzed successfully!" := by
  intro h
  have h2 := congrArg (fun s => s.data.head?) h
  simp [String.data_append] at h2

lemma truthy_some (e : String) (he : e ≠ "") : truthy (some e) = true := by
  simp [truthy, he]

/-- C3, as stated, fails: a response that is ok and whose payload carries an `error` field
holding the empty string is rendered as a success. -/
theorem empty_error_field_renders_success :
    emptyErrorInfo.error = some "" ∧
    (download demoWorld "u" (.response true emptyErrorInfo)).page.statusHTML
      = "✅ Link analyzed successfully!" ∧
    (download demoWorld "u" (.response true emptyErrorInfo)).page.thumbnail = some "block" ∧
    Node.textGroup "T" "S" true []
      ∈ (download demoWorld "u" (.response true emptyErrorInfo)).page.siblings := by
  decide

/-- C3, amended: for a non-empty URL on a page that has the thumbnail and its image, if the
`/api/info` transport fails, or the response is not ok, or the payload carries a non-empty
error field, the run ends with the status showing the failure line with the transport
message, the server-supplied error, or `Info fetch failed.` when the server supplied none;
that is the only effect of the response: the page is otherwise as the teardown left it, with
the thumbnail hidden, and without any text-group, audio-group or quality-options element
when before the run the page held each region at most once and no element inside a
text-group.  The status shows the success line exactly when the response arrived, is ok and
its payload has no non-empty error field. -/
theorem analysis_failure_only_sets_status (w : World) (raw : String)
    (hurl : jsTrim raw ≠ "") (ht : w.page.thumbnail.isSome = true)
    (hi : w.page.thumbImg.isSome = true) :
    (∀ m, download w raw (.rejected m) =
      { page := { (downloadStart w raw).page with statusHTML := "❌ Error: " ++ m }
        log := w.log ++ [.fetch "/api/info" ⟨jsTrim raw, none, none⟩]
        pending := w.pending }) ∧
    (∀ ok info e, info.error = some e → e ≠ "" → download w raw (.response ok info) =
      { page := { (downloadStart w raw).page with statusHTML := "❌ Error: " ++ e }
        log := w.log ++ [.fetch "/api/info" ⟨jsTrim raw, none, none⟩]
        pending := w.pending }) ∧
    (∀ info, truthy info.error = false → download w raw (.response false info) =
      { page := { (downloadStart w raw).page with
          statusHTML := "❌ Error: Info fetch failed." }
        log := w.log ++ [.fetch "/api/info" ⟨jsTrim raw, none, none⟩]
        pending := w.pending }) ∧
    (downloadStart w raw).page.thumbnail = some "none" ∧
    (downloadStart w raw).page.thumbImg = some "" ∧
    (w.page.Ready → NoRegions (downloadStart w raw).page.siblings) ∧
    (∀ resp, (download w raw resp).page.statusHTML = "✅ Link analyzed successfully!" ↔
      ∃ info, resp = .response true info ∧ truthy info.error = false) := by
  have hs := (download_present w raw (.rejected "") hurl ht hi).1
  have hd : ∀ resp, download w raw resp =
      { page := downloadResume (jsTrim raw) resp (downloadStart w raw).page
        log := w.log ++ [.fetch "/api/info" ⟨jsTrim raw, none, none⟩]
        pending := w.pending } :=
    fun resp => (download_present w raw resp hurl ht hi).2
  have hth : (downloadStart w raw).page.thumbnail = some "none" := by rw [hs]
  refine ⟨?_, ?_, ?_, hth, by rw [hs], ?_, ?_⟩
  · intro m
    rw [hd]; rfl
  · intro ok info e he hne
    rw [hd]
    simp [downloadResume, he, truthy_some e hne, str]
  · intro info herr
    rw [hd]
    simp [downloadResume, herr]
  · intro hr
    rw [downloadStart_ready w raw hurl hr]
    exact noRegions_filter _
  · intro resp
    rw [hd]
    constructor
    · intro hst
      cases resp with
      | rejected m => exact absurd hst (error_ne_success m)
      | response ok info =>
        by_cases hf : (!ok || truthy info.error) = true
        · simp only [downloadResume, hf, if_true] at hst
          exact absurd hst (error_ne_success _)
        · simp only [Bool.or_eq_true, Bool.not_eq_true', not_or, Bool.not_eq_false,
            Bool.not_eq_true] at hf
          exact ⟨info, by rw [hf.1], hf.2⟩
    · rintro ⟨info, rfl, herr⟩
      exact (downloadResume_siblings (jsTrim raw) info _ (by rw [hth]; rfl) herr).2

/-- C3 amended, on the demo page with the server error `Unsupported URL`. -/
theorem analysis_failure_only_sets_status_witness :
    jsTrim "u" ≠ "" ∧ demoWorld.page.thumbnail.isSome = true ∧
    demoWorld.page.thumbImg.isSome = true ∧ demoWorld.page.Ready ∧
    download demoWorld "u" (.response false { bareInfo with error := some "Unsupported URL" }) =
      { page := { (downloadStart demoWorld "u").page with
          statusHTML := "❌ Error: Unsupported URL" }
        log := [.fetch "/api/info" ⟨"u", none, none⟩]
        pending := [] } ∧
    NoRegions (downloadStart demoWorld "u").page.siblings :=
  ⟨by decide, by decide, by decide, by decide,
   (analysis_failure_only_sets_status demoWorld "u" (by decide) (by decide) (by decide)).2.1
      false { bareInfo with error := some "Unsupported URL" } "Unsupported URL" rfl (by decide),
   (analysis_failure_only_sets_status demoWorld "u" (by decide) (by decide)
      (by decide)).2.2.2.2.2.1 (by decide)⟩

/-! ## Download handlers: failures and unsplittable values -/

lemma selectOnChange_fetches (url value : String) (resp : Fetched DownloadPayload) (w : World)
    (hv : value ≠ "") :
    (selectOnChange url value resp w).log.filter Effect.isFetch =
      w.log.filter Effect.isFetch ++
        [.fetch "/api/download" ⟨url, (jsSplit value "||").get? 0, (jsSplit value "||").get? 1⟩] := by
  cases resp with
  | rejected m => simp [selectOnChange, hv, List.filter_append, Effect.isFetch]
  | response ok dj =>
    by_cases hf : (!ok || truthy dj.error) = true
    · simp [selectOnChange, hv, hf, List.filter_append, Effect.isFetch]
    · simp only [Bool.not_eq_true] at hf
      simp [selectOnChange, hv, hf, List.filter_append, Effect.isFetch]

/-- C4, as stated, fails: a download response that is ok and carries an `error` field holding
the empty string makes both handlers click the anchor and report completion. -/
theorem empty_error_field_still_saves :
    mp3Click "u" (.response true ⟨some "", some "/files/a.mp3"⟩) freshWorld =
      { freshWorld with
        page := { freshWorld.page with statusHTML := "✅ Audio download complete!" }
        log := [.fetch "/api/download_audio" ⟨"u", none, none⟩, .save "/files/a.mp3"] } ∧
    selectOnChange "u" "v1||video_only" (.response true ⟨some "", some "/files/v.mp4"⟩)
        freshWorld =
      { freshWorld with
        page := { freshWorld.page with statusHTML := "✅ Video download finished!" }
        log := [.fetch "/api/download" ⟨"u", some "v1", some "video_only"⟩,
          .save "/files/v.mp4"] } := by
  decide

/-- C4, amended: for both handlers (the selector holding a real option value) and every
download response that is a transport error with message `m`, or is not ok with error text
`m` (empty when the payload has none), or carries the non-empty error `m`, the handler issues
its one request, clicks no anchor, and ends with the status `❌ ` followed by `m`; for the
payload error `too large` the status reads `❌ too large`. -/
theorem download_failure_reports_and_saves_nothing (url value : String) (w : World)
    (resp : Fetched DownloadPayload) (m : String) (hv : value ≠ "")
    (hfail : resp = .rejected m ∨
      (∃ dj, resp = .response false dj ∧ m = dj.error.getD "") ∨
      (∃ ok dj, resp = .response ok dj ∧ dj.error = some m ∧ m ≠ "")) :
    mp3Click url resp w =
      { w with
        page := { w.page with statusHTML := "❌ " ++ m }
        log := w.log ++ [.fetch "/api/download_audio" ⟨url, none, none⟩] } ∧
    selectOnChange url value resp w =
      { w with
        page := { w.page with statusHTML := "❌ " ++ m }
        log := w.log ++ [.fetch "/api/download"
          ⟨url, (jsSplit value "||").get? 0, (jsSplit value "||").get? 1⟩] } ∧
    (mp3Click url resp w).log.filter Effect.isSave = w.log.filter Effect.isSave ∧
    (selectOnChange url value resp w).log.filter Effect.isSave = w.log.filter Effect.isSave ∧
    (∀ ok file,
      (mp3Click url (.response ok ⟨some "too large", file⟩) w).page.statusHTML
        = "❌ too large" ∧
      (selectOnChange url value (.response ok ⟨some "too large", file⟩) w).page.statusHTML
        = "❌ too large") ∧
    jsIncludes "❌ too large" "too large" = true := by
  have hA : mp3Click url resp w =
      { w with
        page := { w.page with statusHTML := "❌ " ++ m }
        log := w.log ++ [.fetch "/api/download_audio" ⟨url, none, none⟩] } := by
    rcases hfail with rfl | ⟨dj, rfl, rfl⟩ | ⟨ok, dj, rfl, he, hne⟩
    · rfl
    · simp [mp3Click]
    · simp [mp3Click, he, truthy_some m hne]
  have hB : selectOnChange url value resp w =
      { w with
        page := { w.page with statusHTML := "❌ " ++ m }
        log := w.log ++ [.fetch "/api/download"
          ⟨url, (jsSplit value "||").get? 0, (jsSplit value "||").get? 1⟩] } := by
    rcases hfail with rfl | ⟨dj, rfl, rfl⟩ | ⟨ok, dj, rfl, he, hne⟩
    · simp [selectOnChange, hv]
    · simp [selectOnChange, hv]
    · simp [selectOnChange, hv, he, truthy_some m hne]
  refine ⟨hA, hB, ?_, ?_, ?_, by decide⟩
  · rw [hA]; simp [List.filter_append, Effect.isSave]
  · rw [hB]; simp [List.filter_append, Effect.isSave]
  · intro ok file
    have ht : truthy (some "too large") = true := by decide
    constructor
    · simp [mp3Click, ht]
    · simp [selectOnChange, hv, ht]

/-- C4 amended, on the worked example: the option `v1||video_only` answered by the payload
error `too large`. -/
theorem download_failure_reports_and_saves_nothing_witness :
    ("v1||video_only" : String) ≠ "" ∧
    selectOnChange "u" "v1||video_only" (.response true ⟨some "too large", none⟩) freshWorld =
      { freshWorld with
        page := { freshWorld.page with statusHTML := "❌ too large" }
        log := [.fetch "/api/download" ⟨"u", some "v1", some "video_only"⟩] } :=
  ⟨by decide,
   (download_failure_reports_and_saves_nothing "u" "v1||video_only" freshWorld
      (.response true ⟨some "too large", none⟩) "too large" (by decide)
      (Or.inr (Or.inr ⟨true, ⟨some "too large", none⟩, rfl, rfl, by decide⟩))).2.1⟩

/-- C8, as stated, fails: the non-empty value `abc` has no separator, yet the handler
replaces the status, issues a `/api/download` request and, on a good response, clicks the
anchor. -/
theorem unsplittable_value_still_downloads :
    ("abc" : String) ≠ "" ∧ jsIncludes "abc" "||" = false ∧
    selectOnChange "u" "abc" (.response true ⟨none, some "/files/v.mp4"⟩) freshWorld =
      { freshWorld with
        page := { freshWorld.page with statusHTML := "✅ Video download finished!" }
        log := [.fetch "/api/download" ⟨"u", some "abc", none⟩, .save "/files/v.mp4"] } := by
  decide

/-- C8, amended: only the empty (placeholder) value is a no-op.  For a non-empty value
without the separator the split yields the single piece `value`; the handler issues exactly
one `/api/download` request whose body carries `format_id` equal to the whole value and no
`format_kind`, and ends with the status showing the completion or the failure line, as for
any other value. -/
theorem unsplittable_value_sent_as_format_id (url value : String)
    (resp : Fetched DownloadPayload) (w : World)
    (hv : value ≠ "") (hsep : jsIncludes value "||" = false) :
    jsSplit value "||" = [value] ∧
    (selectOnChange url value resp w).log.filter Effect.isFetch =
      w.log.filter Effect.isFetch ++ [.fetch "/api/download" ⟨url, some value, none⟩] ∧
    ((selectOnChange url value resp w).page.statusHTML = "✅ Video download finished!" ∨
      ∃ m, (selectOnChange url value resp w).page.statusHTML = "❌ " ++ m) ∧
    selectOnChange url "" resp w = w := by
  have hs := jsSplit_unsplittable value hsep
  refine ⟨hs, ?_, ?_, by simp [selectOnChange]⟩
  · rw [selectOnChange_fetches url value resp w hv, hs]; rfl
  · cases resp with
    | rejected m => exact Or.inr ⟨m, by simp [selectOnChange, hv]⟩
    | response ok dj =>
      by_cases hf : (!ok || truthy dj.error) = true
      · exact Or.inr ⟨dj.error.getD "", by simp [selectOnChange, hv, hf]⟩
      · simp only [Bool.not_eq_true] at hf
        exact Or.inl (by simp [selectOnChange, hv, hf])

/-- C8 amended, on the value `abc`. -/
theorem unsplittable_value_sent_as_format_id_witness :
    ("abc" : String) ≠ "" ∧ jsIncludes "abc" "||" = false ∧
    (selectOnChange "u" "abc" (.rejected "Failed to fetch") freshWorld).log.filter
        Effect.isFetch =
      freshWorld.log.filter Effect.isFetch ++ [.fetch "/api/download" ⟨"u", some "abc", none⟩] :=
  ⟨by decide, by decide,
   (unsplittable_value_sent_as_format_id "u" "abc" (.rejected "Failed to fetch") freshWorld
      (by decide) (by decide)).2.1⟩

/-! ## Quality selector -/

lemma allVideo_get? (info : Info) (n : Nat) (c : Candidate)
    (hn : (allVideo info).get? n = some c) :
    c.format ∈ info.formats.combined.getD [] ++ info.formats.video_only.getD [] ∧
    (c.kind = "combined" ∨ c.kind = "video_only") ∧
    c.kind = (if n < (info.formats.combined.getD []).length then "combined" else "video_only") ∧
    (info.formats.combined.getD [] ++ info.formats.video_only.getD []).get? n
      = some c.format := by
  simp only [allVideo, List.get?_eq_getElem?] at hn ⊢
  by_cases hlt : n < (info.formats.combined.getD []).length
  · rw [List.getElem?_append_left (by simpa using hlt)] at hn
    rw [List.getElem?_map] at hn
    rw [List.getElem?_append_left hlt]
    cases hx : (info.formats.combined.getD [])[n]? with
    | none => simp [hx] at hn
    | some x =>
      simp only [hx, Option.map_some', Option.some.injEq] at hn
      subst hn
      have hmem : x ∈ info.formats.combined.getD [] := List.getElem?_mem hx
      simp [hlt, hmem]
  · have hge : (info.formats.combined.getD []).length ≤ n := Nat.le_of_not_lt hlt
    rw [List.getElem?_append_right (by simpa using hge)] at hn
    rw [List.getElem?_map, List.length_map] at hn
    rw [List.getElem?_append_right hge]
    cases hx : (info.formats.video_only.getD [])[n - (info.formats.combined.getD []).length]? with
    | none => simp [hx] at hn
    | some x =>
      simp only [hx, Option.map_some', Option.some.injEq] at hn
      subst hn
      have hmem : x ∈ info.formats.video_only.getD [] := List.getElem?_mem hx
      simp [hlt, hmem]

/-- C2, as stated, fails: the id `a|` does not contain the separator, but its packed value
`a|||combined` splits at the first two bars, so the request carries `format_id` equal to `a`
and `format_kind` equal to `|combined`. -/
theorem trailing_bar_id_not_recovered :
    jsIncludes "a|" "||" = false ∧
    (download freshWorld "u" (.response true barInfo)).page.siblings =
      [.textGroup "T" "S" false [],
       .qualityOptions [⟨"", "Select Video Quality", true⟩,
          ⟨"a|||combined", "720p (mp4) ", false⟩] (some "u"),
       .other 0] ∧
    jsSplit "a|||combined" "||" = ["a", "|combined"] ∧
    (selectOnChange "u" "a|||combined" (.rejected "x") freshWorld).log =
      [.fetch "/api/download" ⟨"u", some "a", some "|combined"⟩] := by
  decide

/-- C2, amended: for a successful response in which no `format_id` contains `||` or ends
with `|`, the candidates are `combined` followed by `video_only` in their original order,
the `n`-th option after the placeholder is the one built from the `n`-th candidate, splitting
its value on `||` gives back that candidate's `format_id` and originating kind, and selecting
it issues exactly one `/api/download` request with body `url`, that `format_id` and that
kind.  The selector with these options is on the page after the run, as a sibling of the
text region when `title` and `site` hold no markup. -/
theorem nth_option_downloads_nth_candidate (w : World) (raw : String) (info : Info)
    (n : Nat) (c : Candidate)
    (hurl : jsTrim raw ≠ "") (h : w.page.Ready) (herr : truthy info.error = false)
    (hids : ∀ f ∈ info.formats.combined.getD [] ++ info.formats.video_only.getD [],
      jsIncludes f.format_id "||" = false ∧ jsEndsWith f.format_id '|' = false)
    (hn : (allVideo info).get? n = some c) :
    (info.formats.combined.getD [] ++ info.formats.video_only.getD []).get? n
      = some c.format ∧
    c.kind = (if n < (info.formats.combined.getD []).length then "combined" else "video_only") ∧
    (∃ e ∈ (download w raw (.response true info)).page.siblings,
      e.holdsSelector (selectOptions (allVideo info)) (some (jsTrim raw)) = true) ∧
    (info.markup = [] →
      Node.qualityOptions (selectOptions (allVideo info)) (some (jsTrim raw))
        ∈ (download w raw (.response true info)).page.siblings) ∧
    (selectOptions (allVideo info)).get? (n + 1) = some (candidateOption c) ∧
    jsSplit (candidateOption c).value "||" = [c.format.format_id, c.kind] ∧
    (∀ resp w2,
      (selectOnChange (jsTrim raw) (candidateOption c).value resp w2).log.filter Effect.isFetch =
        w2.log.filter Effect.isFetch ++
          [.fetch "/api/download" ⟨jsTrim raw, some c.format.format_id, some c.kind⟩]) := by
  obtain ⟨hmem, hkind, hkindn, hfmt⟩ := allVideo_get? info n c hn
  have hsplit : jsSplit (candidateOption c).value "||" = [c.format.format_id, c.kind] := by
    have hk : jsIncludes c.kind "||" = false := by
      rcases hkind with hk | hk <;> rw [hk] <;> decide
    exact jsSplit_packed _ _ (hids _ hmem).1 (hids _ hmem).2 hk
  have hne : (candidateOption c).value ≠ "" := by
    intro he
    have := congrArg (fun s => s.data.length) he
    simp [candidateOption, String.data_append] at this
  have hlen : ¬ (allVideo info).length = 0 := by
    intro h0
    rw [List.length_eq_zero.mp h0] at hn
    simp at hn
  refine ⟨hfmt, hkindn, ?_, ?_, ?_, hsplit, ?_⟩
  · rw [download_ready w raw _ hurl h,
      (downloadResume_siblings (jsTrim raw) info (clearedPage w.page) rfl herr).1]
    exact (placeRegions_spec (jsTrim raw) info _).2.2.2.2 hlen
  · intro hm
    rw [download_ready w raw _ hurl h, downloadResume_success _ _ _ herr hm]
    simp [renderedPage, renderedRegions, hlen]
  · simp only [selectOptions, List.get?_eq_getElem?] at hn ⊢
    simp [hn]
  · intro resp w2
    rw [selectOnChange_fetches _ _ resp w2 hne, hsplit]
    rfl

/-- C2 amended, on the worked example: the first real option is `v1||video_only`. -/
theorem nth_option_downloads_nth_candidate_witness :
    jsTrim " https://example.com/v " ≠ "" ∧ demoWorld.page.Ready ∧
    truthy demoInfo.error = false ∧
    (∀ f ∈ demoInfo.formats.combined.getD [] ++ demoInfo.formats.video_only.getD [],
      jsIncludes f.format_id "||" = false ∧ jsEndsWith f.format_id '|' = false) ∧
    (allVideo demoInfo).get? 0 = some ⟨⟨"v1", some "720p", some "mp4", none⟩, "video_only"⟩ ∧
    (∀ resp w2,
      (selectOnChange "https://example.com/v" "v1||video_only" resp w2).log.filter
          Effect.isFetch =
        w2.log.filter Effect.isFetch ++
          [.fetch "/api/download" ⟨"https://example.com/v", some "v1", some "video_only"⟩]) :=
  ⟨by decide, by decide, by decide, by decide, by decide,
   (nth_option_downloads_nth_candidate demoWorld " https://example.com/v " demoInfo 0
      ⟨⟨"v1", some "720p", some "mp4", none⟩, "video_only"⟩
      (by decide) (by decide) (by decide) (by decide) (by decide)).2.2.2.2.2.2⟩

/-! ## Interleaved runs -/

/-- C10, as stated, fails in two ways.  Two runs started one after the other before either
response arrives both render, leaving two text-group, two audio-group and two
quality-options elements.  And two runs that do not overlap leave two quality selectors when
the title of the first is an element with id `quality-options`: line 25 of the second run
removes that element and not the selector. -/
theorem overlapping_runs_render_twice :
    sequentialFrom freshWorld [.start "u1", .start "u2",
      .resolve 0 (.response true demoInfo), .resolve 0 (.response true demoInfo)] = false ∧
    (runActions freshWorld [.start "u1", .start "u2",
      .resolve 0 (.response true demoInfo), .resolve 0 (.response true demoInfo)]).page.siblings
      = [.textGroup "T" "S" true [], .audioGroup (some "u2"),
         .qualityOptions [⟨"", "Select Video Quality", true⟩,
          ⟨"v1||video_only", "720p (mp4) ", false⟩] (some "u2"),
         .textGroup "T" "S" true [], .audioGroup (some "u1"),
         .qualityOptions [⟨"", "Select Video Quality", true⟩,
          ⟨"v1||video_only", "720p (mp4) ", false⟩] (some "u1"),
         .other 0] ∧
    ¬ AtMostOne (runActions freshWorld [.start "u1", .start "u2",
      .resolve 0 (.response true demoInfo),
      .resolve 0 (.response true demoInfo)]).page.siblings ∧
    sequentialFrom freshWorld [.start "u1", .resolve 0 (.response true qualityIdInfo),
      .start "u2", .resolve 0 (.response true videoInfo)] = true ∧
    (runActions freshWorld [.start "u1", .resolve 0 (.response true qualityIdInfo),
      .start "u2", .resolve 0 (.response true videoInfo)]).page.siblings
      = [.textGroup "T" "S" false [],
         .qualityOptions [⟨"", "Select Video Quality", true⟩, ⟨"18||combined", "360p (mp4) ", false⟩] (some "u2"),
         .qualityOptions [⟨"", "Select Video Quality", true⟩, ⟨"18||combined", "360p (mp4) ", false⟩] (some "u1"),
         .other 0] ∧
    ¬ AtMostOne (runActions freshWorld [.start "u1",
      .resolve 0 (.response true qualityIdInfo),
      .start "u2", .resolve 0 (.response true videoInfo)]).page.siblings := by
  decide

/-- C10, amended: start from a page with nothing suspended, each region at most once and no
element inside a text-group.  Over every sequence of run starts and response arrivals in
which no run is started while another is still suspended and no response brings markup in
`title` or `site`, every reachable page holds at most one text-group, one audio-group and
one quality selector.  When two runs overlap and both responses are successful and without
markup, the first to resolve is not removed: after both have resolved (in either order) the
elements following the thumbnail are the regions of both runs together with the earlier
non-region elements, so there are two text-group elements, the one of the run that resolved
last immediately after the thumbnail; the status and the thumbnail are those of the run that
resolved last. -/
theorem regions_unique_unless_runs_overlap (w : World) (hp : w.pending = [])
    (hu : AtMostOne w.page.siblings) (hpl : Plain w.page.siblings) :
    (∀ as, sequentialFrom w as = true → (∀ a ∈ as, a.plain = true) →
      AtMostOne (runActions w as).page.siblings) ∧
    (∀ rawA rawB infoA infoB, w.page.Ready → jsTrim rawA ≠ "" → jsTrim rawB ≠ "" →
      truthy infoA.error = false → truthy infoB.error = false →
      infoA.markup = [] → infoB.markup = [] →
      ((runActions w [.start rawA, .start rawB,
          .resolve 0 (.response true infoA), .resolve 0 (.response true infoB)]).page.siblings.countP
          Node.isText = 2 ∧
        (runActions w [.start rawA, .start rawB,
          .resolve 0 (.response true infoA), .resolve 0 (.response true infoB)]).page.siblings.head?
          = some (Node.textGroup infoB.title infoB.site infoB.limited_formats []) ∧
        Node.textGroup infoA.title infoA.site infoA.limited_formats [] ∈
          (runActions w [.start rawA, .start rawB,
          .resolve 0 (.response true infoA), .resolve 0 (.response true infoB)]).page.siblings ∧
        (runActions w [.start rawA, .start rawB,
          .resolve 0 (.response true infoA), .resolve 0 (.response true infoB)]).page.statusHTML
          = "✅ Link analyzed successfully!" ∧
        (runActions w [.start rawA, .start rawB,
          .resolve 0 (.response true infoA), .resolve 0 (.response true infoB)]).page.thumbnail
          = some "block" ∧
        (runActions w [.start rawA, .start rawB,
          .resolve 0 (.response true infoA), .resolve 0 (.response true infoB)]).page.thumbImg
          = some (str infoB.thumbnail) ∧
        (runActions w [.start rawA, .start rawB,
          .resolve 0 (.response true infoA), .resolve 0 (.response true infoB)]).page.siblings.Perm
          (renderedRegions (jsTrim rawB) infoB ++ (renderedRegions (jsTrim rawA) infoA ++
            w.page.siblings.filter (fun n => !n.isRegion)))) ∧
      ((runActions w [.start rawA, .start rawB,
          .resolve 1 (.response true infoB), .resolve 0 (.response true infoA)]).page.siblings.countP
          Node.isText = 2 ∧
        (runActions w [.start rawA, .start rawB,
          .resolve 1 (.response true infoB), .resolve 0 (.response true infoA)]).page.siblings.head?
          = some (Node.textGroup infoA.title infoA.site infoA.limited_formats []) ∧
        Node.textGroup infoB.title infoB.site infoB.limited_formats [] ∈
          (runActions w [.start rawA, .start rawB,
          .resolve 1 (.response true infoB), .resolve 0 (.response true infoA)]).page.siblings ∧
        (runActions w [.start rawA, .start rawB,
          .resolve 1 (.response true infoB), .resolve 0 (.response true infoA)]).page.statusHTML
          = "✅ Link analyzed successfully!" ∧
        (runActions w [.start rawA, .start rawB,
          .resolve 1 (.response true infoB), .resolve 0 (.response true infoA)]).page.thumbnail
          = some "block" ∧
        (runActions w [.start rawA, .start rawB,
          .resolve 1 (.response true infoB), .resolve 0 (.response true infoA)]).page.thumbImg
          = some (str infoA.thumbnail) ∧
        (runActions w [.start rawA, .start rawB,
          .resolve 1 (.response true infoB), .resolve 0 (.response true infoA)]).page.siblings.Perm
          (renderedRegions (jsTrim rawA) infoA ++ (renderedRegions (jsTrim rawB) infoB ++
            w.page.siblings.filter (fun n => !n.isRegion))))) := by
  constructor
  · intro as hs hm
    exact atMostOne_of_settled _
      (settled_runActions as w ⟨hpl, Or.inl ⟨hp, hu⟩⟩ hs hm)
  · intro rawA rawB infoA infoB hr hA hB heA heB hmA hmB
    obtain ⟨h1, h2⟩ := overlap_pages w rawA rawB (.response true infoA) (.response true infoB)
      hp hr hA hB
    have hc : (clearedPage (clearedPage w.page)).siblings
        = w.page.siblings.filter (fun n => !n.isRegion) :=
      filter_of_noRegions _ (noRegions_filter _)
    have hAB := two_resumes (clearedPage w.page) (jsTrim rawA) (jsTrim rawB) infoA infoB
      heA heB hmA hmB
    have hBA := two_resumes (clearedPage w.page) (jsTrim rawB) (jsTrim rawA) infoB infoA
      heB heA hmB hmA
    rw [hc] at hAB hBA
    rw [h1, h2]
    exact ⟨hAB, hBA⟩

/-- C10 amended, on the fresh page: two runs one after the other leave one of each region;
two overlapping runs leave two text-group elements. -/
theorem regions_unique_unless_runs_overlap_witness :
    freshWorld.pending = [] ∧ AtMostOne freshWorld.page.siblings ∧
    Plain freshWorld.page.siblings ∧
    sequentialFrom freshWorld [.start "u1", .resolve 0 (.response true demoInfo),
      .start "u2", .resolve 0 (.response true demoInfo)] = true ∧
    AtMostOne (runActions freshWorld [.start "u1", .resolve 0 (.response true demoInfo),
      .start "u2", .resolve 0 (.response true demoInfo)]).page.siblings ∧
    (runActions freshWorld [.start "u1", .start "u2", .resolve 0 (.response true demoInfo),
      .resolve 0 (.response true bareInfo)]).page.siblings.countP Node.isText = 2 :=
  ⟨by decide, by decide, by decide, by decide,
   (regions_unique_unless_runs_overlap freshWorld (by decide) (by decide) (by decide)).1
      [.start "u1", .resolve 0 (.response true demoInfo),
       .start "u2", .resolve 0 (.response true demoInfo)] (by decide) (by decide),
   ((regions_unique_unless_runs_overlap freshWorld (by decide) (by decide) (by decide)).2
      "u1" "u2" demoInfo bareInfo (by decide) (by decide) (by decide) (by decide)
      (by decide) (by decide) (by decide)).1.1⟩

end Header
